import Mathlib

/-!
# Verification of the fastube-front caption-extraction pipeline

Shallow embedding of the core functions of the repository
(`backend/src/utils/youtubeUtils.ts`, `backend/src/controllers/subtitleController.ts`,
`backend/src/services/subtitleService.ts`, `netlify/functions/subtitles.js`)
together with proofs of the spec's testable properties.

JavaScript regular expressions are embedded as explicit backtracking scanners
over `List Char`, following the semantics of the JS engine:

* an unanchored regex match scans candidate start positions left to right;
* a greedy `.*`-prefixed anchored pattern (`/^.*(A|B|...)(...)/`) selects the
  **last** position at which an alternative matches (the leading greedy `.*`
  backtracks from the longest candidate), and `.` never matches a newline;
* an alternation tries its branches in written order;
* a greedy character class (`[^...]*`) takes the longest run, and only
  backtracks when its continuation can fail.

JS numbers produced by `parseFloat` are modelled as `Option ℚ`
(`none` encodes `NaN`); the inputs manipulated by the code are decimal
literals, for which rational arithmetic is exact.
-/

namespace Fastube

/-- Literal matching: `matchLit pat s` returns `some rest` iff `s = pat ++ rest`; the basic
literal-matching step of every embedded regex. -/
def matchLit : List Char → List Char → Option (List Char)
  | [], s => some s
  | _ :: _, [] => none
  | p :: ps, c :: cs => if p = c then matchLit ps cs else none

theorem matchLit_append {p s r : List Char} (h : matchLit p s = some r) : s = p ++ r := by
  induction p generalizing s with
  | nil => simpa [matchLit] using h
  | cons a ps ih =>
    cases s with
    | nil => simp [matchLit] at h
    | cons c cs =>
      by_cases hac : a = c
      · subst hac
        simp only [matchLit, if_pos rfl] at h
        simpa using congrArg (a :: ·) (ih h)
      · simp [matchLit, hac] at h

/-! ## `extractVideoID` (backend/src/utils/youtubeUtils.ts, lines 46–51)

```js
export function extractVideoID(url: string): string | null {
  const regExp = /^.*(youtu.be\/|v\/|u\/\w\/|embed\/|watch\?v=|&v=)([^#&?]*).*/;
  const match = url.match(regExp);
  return match && match[2].length === 11 ? match[2] : null;
}
```
-/

/-- The `\w` character class of JS: `[A-Za-z0-9_]`. -/
def isWordChar (c : Char) : Bool :=
  ('a' ≤ c && c ≤ 'z') || ('A' ≤ c && c ≤ 'Z') || ('0' ≤ c && c ≤ '9') || c = '_'

/-- Alternative `youtu.be\/`: literal `youtu`, any non-newline character
(the unescaped `.`), literal `be/`. Returns the remainder after the marker. -/
def matchYoutuBe (s : List Char) : Option (List Char) :=
  match matchLit ['y', 'o', 'u', 't', 'u'] s with
  | some (c :: r) => if c = '\n' then none else matchLit ['b', 'e', '/'] r
  | _ => none

/-- Alternative `u\/\w\/`: literal `u/`, one word character, literal `/`. -/
def matchUWSlash (s : List Char) : Option (List Char) :=
  match matchLit ['u', '/'] s with
  | some (c :: r) => if isWordChar c then matchLit ['/'] r else none
  | _ => none

/-- The alternation `youtu.be\/|v\/|u\/\w\/|embed\/|watch\?v=|&v=` tried in
written order at the current position; returns the remainder after the
matched marker. -/
def tryAlts (s : List Char) : Option (List Char) :=
  matchYoutuBe s <|>
  matchLit ['v', '/'] s <|>
  matchUWSlash s <|>
  matchLit ['e', 'm', 'b', 'e', 'd', '/'] s <|>
  matchLit ['w', 'a', 't', 'c', 'h', '?', 'v', '='] s <|>
  matchLit ['&', 'v', '='] s

/-- The `^.*(alternation)` part of the regex: the greedy `.*` makes the engine
prefer the **last** position at which an alternative matches, and `.` does not
cross a newline, so positions beyond the first newline are unreachable.
Returns the remainder after the chosen marker. -/
def extractCore : List Char → Option (List Char)
  | [] => none
  | c :: rest =>
    if c = '\n' then none
    else
      match extractCore rest with
      | some r => some r
      | none => tryAlts (c :: rest)

/-- Characters admitted by the capture group `([^#&?]*)`. -/
def isCaptureChar (c : Char) : Bool := c ≠ '#' && c ≠ '&' && c ≠ '?'

/-- Function `extractVideoID` of `backend/src/utils/youtubeUtils.ts`: match the URL
against `/^.*(youtu.be\/|v\/|u\/\w\/|embed\/|watch\?v=|&v=)([^#&?]*).*/` and
return the second capture group iff it has exactly 11 characters. -/
def extractVideoID (url : String) : Option String :=
  match extractCore url.data with
  | none => none
  | some rest =>
    let g2 := rest.takeWhile isCaptureChar
    if g2.length = 11 then some (String.mk g2) else none

example : extractVideoID "https://www.youtube.com/watch?v=dQw4w9WgXcQ" = some "dQw4w9WgXcQ" := by decide
example : extractVideoID "https://www.youtube.com/watch?v=dQw4w9WgXcQ&t=42" = some "dQw4w9WgXcQ" := by decide

/-! ### C1 proof machinery -/

theorem matchYoutuBe_slash {s r : List Char} (h : matchYoutuBe s = some r) : '/' ∈ s := by
  unfold matchYoutuBe at h
  split at h
  next c r' heq =>
    split at h
    · simp at h
    · have h1 := matchLit_append heq
      have h2 := matchLit_append h
      subst h1; subst h2; simp
  next => simp at h

theorem matchUWSlash_slash {s r : List Char} (h : matchUWSlash s = some r) : '/' ∈ s := by
  unfold matchUWSlash at h
  split at h
  next c r' heq =>
    have h1 := matchLit_append heq
    subst h1; simp
  next => simp at h

/-- Every alternative of the marker alternation contains `/`, `?` or `&`. -/
theorem tryAlts_special {s r : List Char} (h : tryAlts s = some r) :
    '/' ∈ s ∨ '?' ∈ s ∨ '&' ∈ s := by
  unfold tryAlts at h
  cases h1 : matchYoutuBe s with
  | some r1 => exact Or.inl (matchYoutuBe_slash h1)
  | none =>
  rw [h1, Option.none_orElse] at h
  cases h2 : matchLit ['v', '/'] s with
  | some r2 => have := matchLit_append h2; subst this; simp
  | none =>
  rw [h2, Option.none_orElse] at h
  cases h3 : matchUWSlash s with
  | some r3 => exact Or.inl (matchUWSlash_slash h3)
  | none =>
  rw [h3, Option.none_orElse] at h
  cases h4 : matchLit ['e', 'm', 'b', 'e', 'd', '/'] s with
  | some r4 => have := matchLit_append h4; subst this; simp
  | none =>
  rw [h4, Option.none_orElse] at h
  cases h5 : matchLit ['w', 'a', 't', 'c', 'h', '?', 'v', '='] s with
  | some r5 => have := matchLit_append h5; subst this; simp
  | none =>
  rw [h5, Option.none_orElse] at h
  have := matchLit_append h; subst this; simp

/-- Characters that may appear in a YouTube video identifier. -/
def isIdChar (c : Char) : Bool := isWordChar c || c = '-'

theorem tryAlts_eq_none {s : List Char} (h : ∀ c ∈ s, isIdChar c = true) :
    tryAlts s = none := by
  cases htry : tryAlts s with
  | none => rfl
  | some r =>
    rcases tryAlts_special htry with h1 | h1 | h1 <;>
      simpa [isIdChar, isWordChar] using h _ h1

theorem extractCore_eq_none {s : List Char} (h : ∀ c ∈ s, isIdChar c = true) :
    extractCore s = none := by
  induction s with
  | nil => rfl
  | cons c cs ih =>
    have hcs : ∀ x ∈ cs, isIdChar x = true := fun x hx => h x (List.mem_cons_of_mem _ hx)
    unfold extractCore
    rw [ih hcs, tryAlts_eq_none h]
    split <;> rfl

theorem extractCore_cons_some {c : Char} {s r : List Char} (hc : ¬ c = '\n')
    (h : extractCore s = some r) : extractCore (c :: s) = some r := by
  unfold extractCore; rw [if_neg hc, h]

theorem extractCore_cons_none {c : Char} {s : List Char} (hc : ¬ c = '\n')
    (h : extractCore s = none) : extractCore (c :: s) = tryAlts (c :: s) := by
  unfold extractCore; rw [if_neg hc, h]

theorem isCaptureChar_of_isIdChar {c : Char} (h : isIdChar c = true) : isCaptureChar c = true := by
  by_contra hc
  simp only [isCaptureChar, Bool.and_eq_true, decide_eq_true_eq, not_and_or, not_not,
    Bool.not_eq_true] at hc
  rcases hc with (rfl | rfl) | rfl <;> simp [isIdChar, isWordChar] at h

theorem takeWhile_id_list {l : List Char} (h : ∀ c ∈ l, isIdChar c = true) :
    l.takeWhile isCaptureChar = l := by
  induction l with
  | nil => rfl
  | cons c cs ih =>
    rw [List.takeWhile_cons, if_pos (isCaptureChar_of_isIdChar (h c (by simp)))]
    exact congrArg (c :: ·) (ih fun x hx => h x (List.mem_cons_of_mem _ hx))

theorem extractVideoID_of_core {p : String} {id : String}
    (hcore : extractCore (p.data ++ id.data) = some id.data)
    (hlen : id.length = 11) (h : ∀ c ∈ id.data, isIdChar c = true) :
    extractVideoID (p ++ id) = some id := by
  unfold extractVideoID
  rw [String.data_append, hcore]
  show (if (id.data.takeWhile isCaptureChar).length = 11 then
      some (String.mk (id.data.takeWhile isCaptureChar)) else none) = some id
  rw [takeWhile_id_list h, if_pos (show id.data.length = 11 from hlen)]

/-- Scan result for a canonical `watch?v=` URL holding an identifier-charset tail. -/
theorem extractCore_watch {l : List Char} (h : ∀ c ∈ l, isIdChar c = true) :
    extractCore ("https://www.youtube.com/watch?v=".data ++ l) = some l := by
  have e32 : extractCore l = none := extractCore_eq_none h
  have e31 : extractCore ('=' :: l) = none := by
    rw [extractCore_cons_none (by decide) e32]
    simp [tryAlts, matchYoutuBe, matchUWSlash, matchLit]
  have e30 : extractCore ('v' :: '=' :: l) = none := by
    rw [extractCore_cons_none (by decide) e31]
    simp [tryAlts, matchYoutuBe, matchUWSlash, matchLit]
  have e29 : extractCore ('?' :: 'v' :: '=' :: l) = none := by
    rw [extractCore_cons_none (by decide) e30]
    simp [tryAlts, matchYoutuBe, matchUWSlash, matchLit]
  have e28 : extractCore ('h' :: '?' :: 'v' :: '=' :: l) = none := by
    rw [extractCore_cons_none (by decide) e29]
    simp [tryAlts, matchYoutuBe, matchUWSlash, matchLit]
  have e27 : extractCore ('c' :: 'h' :: '?' :: 'v' :: '=' :: l) = none := by
    rw [extractCore_cons_none (by decide) e28]
    simp [tryAlts, matchYoutuBe, matchUWSlash, matchLit]
  have e26 : extractCore ('t' :: 'c' :: 'h' :: '?' :: 'v' :: '=' :: l) = none := by
    rw [extractCore_cons_none (by decide) e27]
    simp [tryAlts, matchYoutuBe, matchUWSlash, matchLit]
  have e25 : extractCore ('a' :: 't' :: 'c' :: 'h' :: '?' :: 'v' :: '=' :: l) = none := by
    rw [extractCore_cons_none (by decide) e26]
    simp [tryAlts, matchYoutuBe, matchUWSlash, matchLit]
  have e24 : extractCore ('w' :: 'a' :: 't' :: 'c' :: 'h' :: '?' :: 'v' :: '=' :: l) = some l := by
    rw [extractCore_cons_none (by decide) e25]
    simp [tryAlts, matchYoutuBe, matchUWSlash, matchLit]
  have e23 : extractCore ('/' :: 'w' :: 'a' :: 't' :: 'c' :: 'h' :: '?' :: 'v' :: '=' :: l) = some l := extractCore_cons_some (by decide) e24
  have e22 : extractCore ('m' :: '/' :: 'w' :: 'a' :: 't' :: 'c' :: 'h' :: '?' :: 'v' :: '=' :: l) = some l := extractCore_cons_some (by decide) e23
  have e21 : extractCore ('o' :: 'm' :: '/' :: 'w' :: 'a' :: 't' :: 'c' :: 'h' :: '?' :: 'v' :: '=' :: l) = some l := extractCore_cons_some (by decide) e22
  have e20 : extractCore ('c' :: 'o' :: 'm' :: '/' :: 'w' :: 'a' :: 't' :: 'c' :: 'h' :: '?' :: 'v' :: '=' :: l) = some l := extractCore_cons_some (by decide) e21
  have e19 : extractCore ('.' :: 'c' :: 'o' :: 'm' :: '/' :: 'w' :: 'a' :: 't' :: 'c' :: 'h' :: '?' :: 'v' :: '=' :: l) = some l := extractCore_cons_some (by decide) e20
  have e18 : extractCore ('e' :: '.' :: 'c' :: 'o' :: 'm' :: '/' :: 'w' :: 'a' :: 't' :: 'c' :: 'h' :: '?' :: 'v' :: '=' :: l) = some l := extractCore_cons_some (by decide) e19
  have e17 : extractCore ('b' :: 'e' :: '.' :: 'c' :: 'o' :: 'm' :: '/' :: 'w' :: 'a' :: 't' :: 'c' :: 'h' :: '?' :: 'v' :: '=' :: l) = some l := extractCore_cons_some (by decide) e18
  have e16 : extractCore ('u' :: 'b' :: 'e' :: '.' :: 'c' :: 'o' :: 'm' :: '/' :: 'w' :: 'a' :: 't' :: 'c' :: 'h' :: '?' :: 'v' :: '=' :: l) = some l := extractCore_cons_some (by decide) e17
  have e15 : extractCore ('t' :: 'u' :: 'b' :: 'e' :: '.' :: 'c' :: 'o' :: 'm' :: '/' :: 'w' :: 'a' :: 't' :: 'c' :: 'h' :: '?' :: 'v' :: '=' :: l) = some l := extractCore_cons_some (by decide) e16
  have e14 : extractCore ('u' :: 't' :: 'u' :: 'b' :: 'e' :: '.' :: 'c' :: 'o' :: 'm' :: '/' :: 'w' :: 'a' :: 't' :: 'c' :: 'h' :: '?' :: 'v' :: '=' :: l) = some l := extractCore_cons_some (by decide) e15
  have e13 : extractCore ('o' :: 'u' :: 't' :: 'u' :: 'b' :: 'e' :: '.' :: 'c' :: 'o' :: 'm' :: '/' :: 'w' :: 'a' :: 't' :: 'c' :: 'h' :: '?' :: 'v' :: '=' :: l) = some l := extractCore_cons_some (by decide) e14
  have e12 : extractCore ('y' :: 'o' :: 'u' :: 't' :: 'u' :: 'b' :: 'e' :: '.' :: 'c' :: 'o' :: 'm' :: '/' :: 'w' :: 'a' :: 't' :: 'c' :: 'h' :: '?' :: 'v' :: '=' :: l) = some l := extractCore_cons_some (by decide) e13
  have e11 : extractCore ('.' :: 'y' :: 'o' :: 'u' :: 't' :: 'u' :: 'b' :: 'e' :: '.' :: 'c' :: 'o' :: 'm' :: '/' :: 'w' :: 'a' :: 't' :: 'c' :: 'h' :: '?' :: 'v' :: '=' :: l) = some l := extractCore_cons_some (by decide) e12
  have e10 : extractCore ('w' :: '.' :: 'y' :: 'o' :: 'u' :: 't' :: 'u' :: 'b' :: 'e' :: '.' :: 'c' :: 'o' :: 'm' :: '/' :: 'w' :: 'a' :: 't' :: 'c' :: 'h' :: '?' :: 'v' :: '=' :: l) = some l := extractCore_cons_some (by decide) e11
  have e9 : extractCore ('w' :: 'w' :: '.' :: 'y' :: 'o' :: 'u' :: 't' :: 'u' :: 'b' :: 'e' :: '.' :: 'c' :: 'o' :: 'm' :: '/' :: 'w' :: 'a' :: 't' :: 'c' :: 'h' :: '?' :: 'v' :: '=' :: l) = some l := extractCore_cons_some (by decide) e10
  have e8 : extractCore ('w' :: 'w' :: 'w' :: '.' :: 'y' :: 'o' :: 'u' :: 't' :: 'u' :: 'b' :: 'e' :: '.' :: 'c' :: 'o' :: 'm' :: '/' :: 'w' :: 'a' :: 't' :: 'c' :: 'h' :: '?' :: 'v' :: '=' :: l) = some l := extractCore_cons_some (by decide) e9
  have e7 : extractCore ('/' :: 'w' :: 'w' :: 'w' :: '.' :: 'y' :: 'o' :: 'u' :: 't' :: 'u' :: 'b' :: 'e' :: '.' :: 'c' :: 'o' :: 'm' :: '/' :: 'w' :: 'a' :: 't' :: 'c' :: 'h' :: '?' :: 'v' :: '=' :: l) = some l := extractCore_cons_some (by decide) e8
  have e6 : extractCore ('/' :: '/' :: 'w' :: 'w' :: 'w' :: '.' :: 'y' :: 'o' :: 'u' :: 't' :: 'u' :: 'b' :: 'e' :: '.' :: 'c' :: 'o' :: 'm' :: '/' :: 'w' :: 'a' :: 't' :: 'c' :: 'h' :: '?' :: 'v' :: '=' :: l) = some l := extractCore_cons_some (by decide) e7
  have e5 : extractCore (':' :: '/' :: '/' :: 'w' :: 'w' :: 'w' :: '.' :: 'y' :: 'o' :: 'u' :: 't' :: 'u' :: 'b' :: 'e' :: '.' :: 'c' :: 'o' :: 'm' :: '/' :: 'w' :: 'a' :: 't' :: 'c' :: 'h' :: '?' :: 'v' :: '=' :: l) = some l := extractCore_cons_some (by decide) e6
  have e4 : extractCore ('s' :: ':' :: '/' :: '/' :: 'w' :: 'w' :: 'w' :: '.' :: 'y' :: 'o' :: 'u' :: 't' :: 'u' :: 'b' :: 'e' :: '.' :: 'c' :: 'o' :: 'm' :: '/' :: 'w' :: 'a' :: 't' :: 'c' :: 'h' :: '?' :: 'v' :: '=' :: l) = some l := extractCore_cons_some (by decide) e5
  have e3 : extractCore ('p' :: 's' :: ':' :: '/' :: '/' :: 'w' :: 'w' :: 'w' :: '.' :: 'y' :: 'o' :: 'u' :: 't' :: 'u' :: 'b' :: 'e' :: '.' :: 'c' :: 'o' :: 'm' :: '/' :: 'w' :: 'a' :: 't' :: 'c' :: 'h' :: '?' :: 'v' :: '=' :: l) = some l := extractCore_cons_some (by decide) e4
  have e2 : extractCore ('t' :: 'p' :: 's' :: ':' :: '/' :: '/' :: 'w' :: 'w' :: 'w' :: '.' :: 'y' :: 'o' :: 'u' :: 't' :: 'u' :: 'b' :: 'e' :: '.' :: 'c' :: 'o' :: 'm' :: '/' :: 'w' :: 'a' :: 't' :: 'c' :: 'h' :: '?' :: 'v' :: '=' :: l) = some l := extractCore_cons_some (by decide) e3
  have e1 : extractCore ('t' :: 't' :: 'p' :: 's' :: ':' :: '/' :: '/' :: 'w' :: 'w' :: 'w' :: '.' :: 'y' :: 'o' :: 'u' :: 't' :: 'u' :: 'b' :: 'e' :: '.' :: 'c' :: 'o' :: 'm' :: '/' :: 'w' :: 'a' :: 't' :: 'c' :: 'h' :: '?' :: 'v' :: '=' :: l) = some l := extractCore_cons_some (by decide) e2
  have e0 : extractCore ('h' :: 't' :: 't' :: 'p' :: 's' :: ':' :: '/' :: '/' :: 'w' :: 'w' :: 'w' :: '.' :: 'y' :: 'o' :: 'u' :: 't' :: 'u' :: 'b' :: 'e' :: '.' :: 'c' :: 'o' :: 'm' :: '/' :: 'w' :: 'a' :: 't' :: 'c' :: 'h' :: '?' :: 'v' :: '=' :: l) = some l := extractCore_cons_some (by decide) e1
  rw [show ("https://www.youtube.com/watch?v=").data = ['h', 't', 't', 'p', 's', ':', '/', '/', 'w', 'w', 'w', '.', 'y', 'o', 'u', 't', 'u', 'b', 'e', '.', 'c', 'o', 'm', '/', 'w', 'a', 't', 'c', 'h', '?', 'v', '='] from rfl]
  simpa only [List.cons_append, List.nil_append] using e0

/-- Scan result for a canonical `youtu.be/` URL holding an identifier-charset tail. -/
theorem extractCore_youtube {l : List Char} (h : ∀ c ∈ l, isIdChar c = true) :
    extractCore ("https://youtu.be/".data ++ l) = some l := by
  have e17 : extractCore l = none := extractCore_eq_none h
  have e16 : extractCore ('/' :: l) = none := by
    rw [extractCore_cons_none (by decide) e17]
    simp [tryAlts, matchYoutuBe, matchUWSlash, matchLit]
  have e15 : extractCore ('e' :: '/' :: l) = none := by
    rw [extractCore_cons_none (by decide) e16]
    simp [tryAlts, matchYoutuBe, matchUWSlash, matchLit]
  have e14 : extractCore ('b' :: 'e' :: '/' :: l) = none := by
    rw [extractCore_cons_none (by decide) e15]
    simp [tryAlts, matchYoutuBe, matchUWSlash, matchLit]
  have e13 : extractCore ('.' :: 'b' :: 'e' :: '/' :: l) = none := by
    rw [extractCore_cons_none (by decide) e14]
    simp [tryAlts, matchYoutuBe, matchUWSlash, matchLit]
  have e12 : extractCore ('u' :: '.' :: 'b' :: 'e' :: '/' :: l) = none := by
    rw [extractCore_cons_none (by decide) e13]
    simp [tryAlts, matchYoutuBe, matchUWSlash, matchLit]
  have e11 : extractCore ('t' :: 'u' :: '.' :: 'b' :: 'e' :: '/' :: l) = none := by
    rw [extractCore_cons_none (by decide) e12]
    simp [tryAlts, matchYoutuBe, matchUWSlash, matchLit]
  have e10 : extractCore ('u' :: 't' :: 'u' :: '.' :: 'b' :: 'e' :: '/' :: l) = none := by
    rw [extractCore_cons_none (by decide) e11]
    simp [tryAlts, matchYoutuBe, matchUWSlash, matchLit]
  have e9 : extractCore ('o' :: 'u' :: 't' :: 'u' :: '.' :: 'b' :: 'e' :: '/' :: l) = none := by
    rw [extractCore_cons_none (by decide) e10]
    simp [tryAlts, matchYoutuBe, matchUWSlash, matchLit]
  have e8 : extractCore ('y' :: 'o' :: 'u' :: 't' :: 'u' :: '.' :: 'b' :: 'e' :: '/' :: l) = some l := by
    rw [extractCore_cons_none (by decide) e9]
    simp [tryAlts, matchYoutuBe, matchUWSlash, matchLit]
  have e7 : extractCore ('/' :: 'y' :: 'o' :: 'u' :: 't' :: 'u' :: '.' :: 'b' :: 'e' :: '/' :: l) = some l := extractCore_cons_some (by decide) e8
  have e6 : extractCore ('/' :: '/' :: 'y' :: 'o' :: 'u' :: 't' :: 'u' :: '.' :: 'b' :: 'e' :: '/' :: l) = some l := extractCore_cons_some (by decide) e7
  have e5 : extractCore (':' :: '/' :: '/' :: 'y' :: 'o' :: 'u' :: 't' :: 'u' :: '.' :: 'b' :: 'e' :: '/' :: l) = some l := extractCore_cons_some (by decide) e6
  have e4 : extractCore ('s' :: ':' :: '/' :: '/' :: 'y' :: 'o' :: 'u' :: 't' :: 'u' :: '.' :: 'b' :: 'e' :: '/' :: l) = some l := extractCore_cons_some (by decide) e5
  have e3 : extractCore ('p' :: 's' :: ':' :: '/' :: '/' :: 'y' :: 'o' :: 'u' :: 't' :: 'u' :: '.' :: 'b' :: 'e' :: '/' :: l) = some l := extractCore_cons_some (by decide) e4
  have e2 : extractCore ('t' :: 'p' :: 's' :: ':' :: '/' :: '/' :: 'y' :: 'o' :: 'u' :: 't' :: 'u' :: '.' :: 'b' :: 'e' :: '/' :: l) = some l := extractCore_cons_some (by decide) e3
  have e1 : extractCore ('t' :: 't' :: 'p' :: 's' :: ':' :: '/' :: '/' :: 'y' :: 'o' :: 'u' :: 't' :: 'u' :: '.' :: 'b' :: 'e' :: '/' :: l) = some l := extractCore_cons_some (by decide) e2
  have e0 : extractCore ('h' :: 't' :: 't' :: 'p' :: 's' :: ':' :: '/' :: '/' :: 'y' :: 'o' :: 'u' :: 't' :: 'u' :: '.' :: 'b' :: 'e' :: '/' :: l) = some l := extractCore_cons_some (by decide) e1
  rw [show ("https://youtu.be/").data = ['h', 't', 't', 'p', 's', ':', '/', '/', 'y', 'o', 'u', 't', 'u', '.', 'b', 'e', '/'] from rfl]
  simpa only [List.cons_append, List.nil_append] using e0

/-- Scan result for a canonical `/embed/` URL holding an identifier-charset tail. -/
theorem extractCore_embed {l : List Char} (h : ∀ c ∈ l, isIdChar c = true) :
    extractCore ("https://www.youtube.com/embed/".data ++ l) = some l := by
  have e30 : extractCore l = none := extractCore_eq_none h
  have e29 : extractCore ('/' :: l) = none := by
    rw [extractCore_cons_none (by decide) e30]
    simp [tryAlts, matchYoutuBe, matchUWSlash, matchLit]
  have e28 : extractCore ('d' :: '/' :: l) = none := by
    rw [extractCore_cons_none (by decide) e29]
    simp [tryAlts, matchYoutuBe, matchUWSlash, matchLit]
  have e27 : extractCore ('e' :: 'd' :: '/' :: l) = none := by
    rw [extractCore_cons_none (by decide) e28]
    simp [tryAlts, matchYoutuBe, matchUWSlash, matchLit]
  have e26 : extractCore ('b' :: 'e' :: 'd' :: '/' :: l) = none := by
    rw [extractCore_cons_none (by decide) e27]
    simp [tryAlts, matchYoutuBe, matchUWSlash, matchLit]
  have e25 : extractCore ('m' :: 'b' :: 'e' :: 'd' :: '/' :: l) = none := by
    rw [extractCore_cons_none (by decide) e26]
    simp [tryAlts, matchYoutuBe, matchUWSlash, matchLit]
  have e24 : extractCore ('e' :: 'm' :: 'b' :: 'e' :: 'd' :: '/' :: l) = some l := by
    rw [extractCore_cons_none (by decide) e25]
    simp [tryAlts, matchYoutuBe, matchUWSlash, matchLit]
  have e23 : extractCore ('/' :: 'e' :: 'm' :: 'b' :: 'e' :: 'd' :: '/' :: l) = some l := extractCore_cons_some (by decide) e24
  have e22 : extractCore ('m' :: '/' :: 'e' :: 'm' :: 'b' :: 'e' :: 'd' :: '/' :: l) = some l := extractCore_cons_some (by decide) e23
  have e21 : extractCore ('o' :: 'm' :: '/' :: 'e' :: 'm' :: 'b' :: 'e' :: 'd' :: '/' :: l) = some l := extractCore_cons_some (by decide) e22
  have e20 : extractCore ('c' :: 'o' :: 'm' :: '/' :: 'e' :: 'm' :: 'b' :: 'e' :: 'd' :: '/' :: l) = some l := extractCore_cons_some (by decide) e21
  have e19 : extractCore ('.' :: 'c' :: 'o' :: 'm' :: '/' :: 'e' :: 'm' :: 'b' :: 'e' :: 'd' :: '/' :: l) = some l := extractCore_cons_some (by decide) e20
  have e18 : extractCore ('e' :: '.' :: 'c' :: 'o' :: 'm' :: '/' :: 'e' :: 'm' :: 'b' :: 'e' :: 'd' :: '/' :: l) = some l := extractCore_cons_some (by decide) e19
  have e17 : extractCore ('b' :: 'e' :: '.' :: 'c' :: 'o' :: 'm' :: '/' :: 'e' :: 'm' :: 'b' :: 'e' :: 'd' :: '/' :: l) = some l := extractCore_cons_some (by decide) e18
  have e16 : extractCore ('u' :: 'b' :: 'e' :: '.' :: 'c' :: 'o' :: 'm' :: '/' :: 'e' :: 'm' :: 'b' :: 'e' :: 'd' :: '/' :: l) = some l := extractCore_cons_some (by decide) e17
  have e15 : extractCore ('t' :: 'u' :: 'b' :: 'e' :: '.' :: 'c' :: 'o' :: 'm' :: '/' :: 'e' :: 'm' :: 'b' :: 'e' :: 'd' :: '/' :: l) = some l := extractCore_cons_some (by decide) e16
  have e14 : extractCore ('u' :: 't' :: 'u' :: 'b' :: 'e' :: '.' :: 'c' :: 'o' :: 'm' :: '/' :: 'e' :: 'm' :: 'b' :: 'e' :: 'd' :: '/' :: l) = some l := extractCore_cons_some (by decide) e15
  have e13 : extractCore ('o' :: 'u' :: 't' :: 'u' :: 'b' :: 'e' :: '.' :: 'c' :: 'o' :: 'm' :: '/' :: 'e' :: 'm' :: 'b' :: 'e' :: 'd' :: '/' :: l) = some l := extractCore_cons_some (by decide) e14
  have e12 : extractCore ('y' :: 'o' :: 'u' :: 't' :: 'u' :: 'b' :: 'e' :: '.' :: 'c' :: 'o' :: 'm' :: '/' :: 'e' :: 'm' :: 'b' :: 'e' :: 'd' :: '/' :: l) = some l := extractCore_cons_some (by decide) e13
  have e11 : extractCore ('.' :: 'y' :: 'o' :: 'u' :: 't' :: 'u' :: 'b' :: 'e' :: '.' :: 'c' :: 'o' :: 'm' :: '/' :: 'e' :: 'm' :: 'b' :: 'e' :: 'd' :: '/' :: l) = some l := extractCore_cons_some (by decide) e12
  have e10 : extractCore ('w' :: '.' :: 'y' :: 'o' :: 'u' :: 't' :: 'u' :: 'b' :: 'e' :: '.' :: 'c' :: 'o' :: 'm' :: '/' :: 'e' :: 'm' :: 'b' :: 'e' :: 'd' :: '/' :: l) = some l := extractCore_cons_some (by decide) e11
  have e9 : extractCore ('w' :: 'w' :: '.' :: 'y' :: 'o' :: 'u' :: 't' :: 'u' :: 'b' :: 'e' :: '.' :: 'c' :: 'o' :: 'm' :: '/' :: 'e' :: 'm' :: 'b' :: 'e' :: 'd' :: '/' :: l) = some l := extractCore_cons_some (by decide) e10
  have e8 : extractCore ('w' :: 'w' :: 'w' :: '.' :: 'y' :: 'o' :: 'u' :: 't' :: 'u' :: 'b' :: 'e' :: '.' :: 'c' :: 'o' :: 'm' :: '/' :: 'e' :: 'm' :: 'b' :: 'e' :: 'd' :: '/' :: l) = some l := extractCore_cons_some (by decide) e9
  have e7 : extractCore ('/' :: 'w' :: 'w' :: 'w' :: '.' :: 'y' :: 'o' :: 'u' :: 't' :: 'u' :: 'b' :: 'e' :: '.' :: 'c' :: 'o' :: 'm' :: '/' :: 'e' :: 'm' :: 'b' :: 'e' :: 'd' :: '/' :: l) = some l := extractCore_cons_some (by decide) e8
  have e6 : extractCore ('/' :: '/' :: 'w' :: 'w' :: 'w' :: '.' :: 'y' :: 'o' :: 'u' :: 't' :: 'u' :: 'b' :: 'e' :: '.' :: 'c' :: 'o' :: 'm' :: '/' :: 'e' :: 'm' :: 'b' :: 'e' :: 'd' :: '/' :: l) = some l := extractCore_cons_some (by decide) e7
  have e5 : extractCore (':' :: '/' :: '/' :: 'w' :: 'w' :: 'w' :: '.' :: 'y' :: 'o' :: 'u' :: 't' :: 'u' :: 'b' :: 'e' :: '.' :: 'c' :: 'o' :: 'm' :: '/' :: 'e' :: 'm' :: 'b' :: 'e' :: 'd' :: '/' :: l) = some l := extractCore_cons_some (by decide) e6
  have e4 : extractCore ('s' :: ':' :: '/' :: '/' :: 'w' :: 'w' :: 'w' :: '.' :: 'y' :: 'o' :: 'u' :: 't' :: 'u' :: 'b' :: 'e' :: '.' :: 'c' :: 'o' :: 'm' :: '/' :: 'e' :: 'm' :: 'b' :: 'e' :: 'd' :: '/' :: l) = some l := extractCore_cons_some (by decide) e5
  have e3 : extractCore ('p' :: 's' :: ':' :: '/' :: '/' :: 'w' :: 'w' :: 'w' :: '.' :: 'y' :: 'o' :: 'u' :: 't' :: 'u' :: 'b' :: 'e' :: '.' :: 'c' :: 'o' :: 'm' :: '/' :: 'e' :: 'm' :: 'b' :: 'e' :: 'd' :: '/' :: l) = some l := extractCore_cons_some (by decide) e4
  have e2 : extractCore ('t' :: 'p' :: 's' :: ':' :: '/' :: '/' :: 'w' :: 'w' :: 'w' :: '.' :: 'y' :: 'o' :: 'u' :: 't' :: 'u' :: 'b' :: 'e' :: '.' :: 'c' :: 'o' :: 'm' :: '/' :: 'e' :: 'm' :: 'b' :: 'e' :: 'd' :: '/' :: l) = some l := extractCore_cons_some (by decide) e3
  have e1 : extractCore ('t' :: 't' :: 'p' :: 's' :: ':' :: '/' :: '/' :: 'w' :: 'w' :: 'w' :: '.' :: 'y' :: 'o' :: 'u' :: 't' :: 'u' :: 'b' :: 'e' :: '.' :: 'c' :: 'o' :: 'm' :: '/' :: 'e' :: 'm' :: 'b' :: 'e' :: 'd' :: '/' :: l) = some l := extractCore_cons_some (by decide) e2
  have e0 : extractCore ('h' :: 't' :: 't' :: 'p' :: 's' :: ':' :: '/' :: '/' :: 'w' :: 'w' :: 'w' :: '.' :: 'y' :: 'o' :: 'u' :: 't' :: 'u' :: 'b' :: 'e' :: '.' :: 'c' :: 'o' :: 'm' :: '/' :: 'e' :: 'm' :: 'b' :: 'e' :: 'd' :: '/' :: l) = some l := extractCore_cons_some (by decide) e1
  rw [show ("https://www.youtube.com/embed/").data = ['h', 't', 't', 'p', 's', ':', '/', '/', 'w', 'w', 'w', '.', 'y', 'o', 'u', 't', 'u', 'b', 'e', '.', 'c', 'o', 'm', '/', 'e', 'm', 'b', 'e', 'd', '/'] from rfl]
  simpa only [List.cons_append, List.nil_append] using e0

/-- C1 (counterexample): the spec lists `/shorts/` among the supported URL
shapes, but the regex of `extractVideoID` has no `shorts/` alternative, so a
shorts URL with a well-formed 11-character identifier yields `null`. -/
theorem extractVideoID_shorts_counterexample :
    extractVideoID "https://www.youtube.com/shorts/dQw4w9WgXcQ" = none ∧
    ("dQw4w9WgXcQ" : String).length = 11 := by decide

/-- C1 (amended): for every canonical `watch?v=`, `youtu.be/` or `/embed/`
URL carrying a well-formed 11-character video identifier, `extractVideoID`
returns exactly that identifier; malformed inputs (no 11-character match
after a supported marker, e.g. `"not a url"` or an 8-character identifier)
yield `null`.  `/shorts/` URLs are not supported (see the counterexample). -/
theorem extractVideoID_supported_shapes (id : String) (hlen : id.length = 11)
    (hchars : ∀ c ∈ id.data, isIdChar c = true) :
    extractVideoID ("https://www.youtube.com/watch?v=" ++ id) = some id ∧
    extractVideoID ("https://youtu.be/" ++ id) = some id ∧
    extractVideoID ("https://www.youtube.com/embed/" ++ id) = some id ∧
    extractVideoID "not a url" = none ∧
    extractVideoID "https://www.youtube.com/watch?v=tooshort" = none :=
  ⟨extractVideoID_of_core (extractCore_watch hchars) hlen hchars,
   extractVideoID_of_core (extractCore_youtube hchars) hlen hchars,
   extractVideoID_of_core (extractCore_embed hchars) hlen hchars,
   by decide, by decide⟩

/-- C1 (witness): the amended theorem instantiated at the identifier
`dQw4w9WgXcQ`. -/
theorem extractVideoID_supported_shapes_witness :
    (("dQw4w9WgXcQ" : String).length = 11 ∧
      (∀ c ∈ ("dQw4w9WgXcQ" : String).data, isIdChar c = true)) ∧
    extractVideoID ("https://www.youtube.com/watch?v=" ++ "dQw4w9WgXcQ") = some "dQw4w9WgXcQ" ∧
    extractVideoID ("https://youtu.be/" ++ "dQw4w9WgXcQ") = some "dQw4w9WgXcQ" ∧
    extractVideoID ("https://www.youtube.com/embed/" ++ "dQw4w9WgXcQ") = some "dQw4w9WgXcQ" ∧
    extractVideoID "not a url" = none ∧
    extractVideoID "https://www.youtube.com/watch?v=tooshort" = none :=
  ⟨⟨by decide, by decide⟩,
   extractVideoID_supported_shapes "dQw4w9WgXcQ" (by decide) (by decide)⟩


/-! ## `decodeHtmlEntities` (backend/src/utils/youtubeUtils.ts, lines 63–85)

```js
export const decodeHtmlEntities = (text: string): string => {
  const entities = { "&quot;": ..., "&apos;": ..., "&amp;": ..., "&lt;": ..., "&gt;": ..., "&nbsp;": ... };
  let decoded = text.replace(/&quot;|&apos;|&amp;|&lt;|&gt;|&nbsp;/g, (match) => entities[match] || match);
  decoded = decoded.replace(/&#(\d+);/g, (_, dec) => String.fromCharCode(parseInt(dec, 10)));
  return decoded;
};
```

Two successive global replacements: the numeric pass runs on the OUTPUT of
the named pass.
-/

/-- The apostrophe character (code 39), written via an escape. -/
def apos : Char := '\x27'

/-- First replacement pass of `decodeHtmlEntities`: the global regex
`/&quot;|&apos;|&amp;|&lt;|&gt;|&nbsp;/` replaced through the entity table.
JS `String.replace` scans left to right, copies unmatched characters, and
never rescans emitted replacement text. -/
def namedReplace : List Char → List Char
  | '&' :: 'q' :: 'u' :: 'o' :: 't' :: ';' :: r => '"' :: namedReplace r
  | '&' :: 'a' :: 'p' :: 'o' :: 's' :: ';' :: r => apos :: namedReplace r
  | '&' :: 'a' :: 'm' :: 'p' :: ';' :: r => '&' :: namedReplace r
  | '&' :: 'l' :: 't' :: ';' :: r => '<' :: namedReplace r
  | '&' :: 'g' :: 't' :: ';' :: r => '>' :: namedReplace r
  | '&' :: 'n' :: 'b' :: 's' :: 'p' :: ';' :: r => ' ' :: namedReplace r
  | c :: r => c :: namedReplace r
  | [] => []

/-- JS `String.fromCharCode` truncates its argument to 16 bits.  (Codes in the
surrogate range are not valid Lean scalar values and fall back to `'\x00'`;
the development only evaluates printable codes.) -/
def fromCharCode (n : Nat) : Char := Char.ofNat (n % 65536)

/-- JS `parseInt(dec, 10)` on a non-empty digit string. -/
def digitsToNat (ds : List Char) : Nat := ds.foldl (fun acc d => acc * 10 + (d.toNat - 48)) 0

/-- Scanner state for the global regex `/&#(\d+);/`: nothing pending, a
pending `&`, or a pending `&#` followed by the digits read so far. -/
inductive NumScanState
  | idle
  | amp
  | num (ds : List Char)

/-- Text represented by a pending partial match, emitted verbatim when the
input ends. -/
def flushNum : NumScanState → List Char
  | .idle => []
  | .amp => ['&']
  | .num ds => '&' :: '#' :: ds

/-- Second replacement pass of `decodeHtmlEntities`: the global regex
`/&#(\d+);/` as a single left-to-right scan with an explicit pending state.
When a partial match `&#ddd` is broken by a character, the JS engine resumes
scanning at the position after the failed `&`; positions strictly inside the
flushed pending text cannot start a match (its only `&` is at its head,
where matching already failed), so resuming at the breaking character is
equivalent. -/
def numAux : NumScanState → List Char → List Char
  | st, [] => flushNum st
  | .idle, c :: r => if c = '&' then numAux .amp r else c :: numAux .idle r
  | .amp, c :: r =>
    if c = '#' then numAux (.num []) r
    else if c = '&' then '&' :: numAux .amp r
    else '&' :: c :: numAux .idle r
  | .num ds, c :: r =>
    if c.isDigit then numAux (.num (ds ++ [c])) r
    else if c = ';' then
      if ds.isEmpty then '&' :: '#' :: ';' :: numAux .idle r
      else fromCharCode (digitsToNat ds) :: numAux .idle r
    else if c = '&' then ('&' :: '#' :: ds) ++ numAux .amp r
    else ('&' :: '#' :: ds) ++ (c :: numAux .idle r)

/-- Function `decodeHtmlEntities` of `backend/src/utils/youtubeUtils.ts`: named-entity
replacement followed by numeric-entity replacement on its output. -/
def decodeHtmlEntities (text : String) : String :=
  String.mk (numAux .idle (namedReplace text.data))

example : decodeHtmlEntities "&quot;a&quot; &#39;b&#39; &lt;i&gt; &amp;x &nbsp;" = "\"a\" \x27b\x27 <i> &x  " := by decide
example : decodeHtmlEntities "&#12x;" = "&#12x;" := by decide
example : decodeHtmlEntities "&&#60;" = "&<" := by decide

/-- Modelled from the spec: the reference single-level HTML entity encoder
for the representative characters `&`, `<`, `>`, `"`, `'` of the round-trip
property (named references for the first four and `&#39;` for the
apostrophe, as produced by the common reference escapers). -/
def encodeChar (c : Char) : List Char :=
  if c = '&' then ['&', 'a', 'm', 'p', ';']
  else if c = '<' then ['&', 'l', 't', ';']
  else if c = '>' then ['&', 'g', 't', ';']
  else if c = '"' then ['&', 'q', 'u', 'o', 't', ';']
  else if c = apos then ['&', '#', '3', '9', ';']
  else [c]

/-- Reference encoder over whole strings. -/
def encodeHtmlEntities (t : String) : String := String.mk (t.data.flatMap encodeChar)

example : encodeHtmlEntities "a&b<c>\x27\"" = "a&amp;b&lt;c&gt;&#39;&quot;" := by decide

/-- The intermediate shape left by the named pass on encoder output: every
character restored except the apostrophe, which is still `&#39;`. -/
def enc2 (c : Char) : List Char := if c = apos then ['&', '#', '3', '9', ';'] else [c]

set_option maxHeartbeats 2000000 in
theorem namedReplace_cons_ne {c : Char} {r : List Char} (hc : ¬ c = '&') :
    namedReplace (c :: r) = c :: namedReplace r := by
  rw [namedReplace.eq_def]
  split
  all_goals try (rename_i heq; injection heq with h1 h2; exact absurd h1 hc)
  · rename_i heq; injection heq with h1 h2; subst h1; subst h2; rfl
  · rename_i heq; exact absurd heq (by simp)

/-- The named pass restores every encoded character except the apostrophe. -/
theorem namedReplace_encode (l : List Char) :
    namedReplace (l.flatMap encodeChar) = l.flatMap enc2 := by
  induction l with
  | nil => rfl
  | cons c cs ih =>
    rw [List.flatMap_cons, List.flatMap_cons]
    by_cases h1 : c = '&'
    · subst h1; simp [encodeChar, enc2, apos, namedReplace, ih]
    · by_cases h2 : c = '<'
      · subst h2; simp [encodeChar, enc2, apos, namedReplace, ih]
      · by_cases h3 : c = '>'
        · subst h3; simp [encodeChar, enc2, apos, namedReplace, ih]
        · by_cases h4 : c = '"'
          · subst h4; simp [encodeChar, enc2, apos, namedReplace, ih]
          · by_cases h5 : c = apos
            · subst h5; simp [encodeChar, enc2, apos, namedReplace, ih]
            · simp only [encodeChar, enc2, if_neg h1, if_neg h2, if_neg h3, if_neg h4, if_neg h5,
                List.singleton_append]
              rw [namedReplace_cons_ne h1, ih]

/-- The numeric pass decodes the `&#39;` blocks and leaves everything else,
provided no literal `#` is present in the original text. -/
theorem numAux_enc2 (l : List Char) (h : ∀ c ∈ l, c ≠ '#') :
    numAux .idle (l.flatMap enc2) = l ∧ numAux .amp (l.flatMap enc2) = '&' :: l := by
  induction l with
  | nil => exact ⟨rfl, rfl⟩
  | cons c cs ih =>
    have hcs : ∀ x ∈ cs, x ≠ '#' := fun x hx => h x (List.mem_cons_of_mem _ hx)
    obtain ⟨ih1, ih2⟩ := ih hcs
    have hc : c ≠ '#' := h c (List.mem_cons_self _ _)
    have h39 : fromCharCode (digitsToNat ['3', '9']) = apos := by decide
    rw [List.flatMap_cons]
    by_cases h5 : c = apos
    · subst h5
      refine ⟨?_, ?_⟩ <;> simp [enc2, numAux, h39, ih1]
    · by_cases h6 : c = '&'
      · subst h6
        refine ⟨?_, ?_⟩ <;> simp [enc2, apos, numAux, ih2]
      · refine ⟨?_, ?_⟩ <;> simp [enc2, numAux, if_neg h5, if_neg h6, h6, hc, ih1]

/-- C6 (counterexample): the round-trip `decode(encode(text)) == text` fails
on the representative text `"&#60;"`: because the numeric replacement runs on
the output of the named replacement, the single decode call fully unescapes
it to `"<"` instead of restoring the original text. -/
theorem decode_encode_roundtrip_counterexample :
    encodeHtmlEntities "&#60;" = "&amp;#60;" ∧
    decodeHtmlEntities (encodeHtmlEntities "&#60;") = "<" ∧
    decodeHtmlEntities (encodeHtmlEntities "&#60;") ≠ "&#60;" := by decide

/-- C6 (amended): `decode(encode(text)) == text` holds for every text over a
character set including `&`, `<`, `>`, `"` and `'` but excluding `#` (so in
particular free of numeric-entity-shaped substrings `&#NNN;`, on which the
counterexample shows the round trip over-decodes). -/
theorem decodeHtmlEntities_encode_roundtrip (t : String) (h : ∀ c ∈ t.data, c ≠ '#') :
    decodeHtmlEntities (encodeHtmlEntities t) = t := by
  unfold decodeHtmlEntities encodeHtmlEntities
  rw [show (String.mk (t.data.flatMap encodeChar)).data = t.data.flatMap encodeChar from rfl]
  rw [namedReplace_encode, (numAux_enc2 t.data h).1]

/-- C6 (witness): the round trip evaluated on a text holding all five
representative characters. -/
theorem decodeHtmlEntities_encode_roundtrip_witness :
    (∀ c ∈ ("a&b<c>\x27\"" : String).data, c ≠ '#') ∧
    decodeHtmlEntities (encodeHtmlEntities "a&b<c>\x27\"") = "a&b<c>\x27\"" :=
  ⟨by decide, decodeHtmlEntities_encode_roundtrip _ (by decide)⟩

/-! ## Single-level reference decoder (the `he` library)

`parseSubtitles` decodes caption text with `he.decode`, an external library
that decodes named and numeric character references in one simultaneous
left-to-right pass. -/

/-- Modelled from the spec: single-level HTML entity decoding — the
behaviour of `he.decode` (restricted to the named entities the repository
manipulates; `he` supports the full HTML5 table, which agrees with this model
on them) and the reference single-level decoder of the idempotence property.
Named and numeric references are decoded in ONE pass, so text produced by a
replacement is never decoded again.  The `Nat` argument is fuel, one unit per
scan step; every step consumes at least one character, so `length` suffices. -/
def heDecodeAux : Nat → List Char → List Char
  | 0, s => s
  | _ + 1, [] => []
  | fuel + 1, '&' :: 'q' :: 'u' :: 'o' :: 't' :: ';' :: r => '"' :: heDecodeAux fuel r
  | fuel + 1, '&' :: 'a' :: 'p' :: 'o' :: 's' :: ';' :: r => apos :: heDecodeAux fuel r
  | fuel + 1, '&' :: 'a' :: 'm' :: 'p' :: ';' :: r => '&' :: heDecodeAux fuel r
  | fuel + 1, '&' :: 'l' :: 't' :: ';' :: r => '<' :: heDecodeAux fuel r
  | fuel + 1, '&' :: 'g' :: 't' :: ';' :: r => '>' :: heDecodeAux fuel r
  | fuel + 1, '&' :: 'n' :: 'b' :: 's' :: 'p' :: ';' :: r => ' ' :: heDecodeAux fuel r
  | fuel + 1, '&' :: '#' :: r =>
    match r.takeWhile Char.isDigit, r.dropWhile Char.isDigit with
    | d :: ds, ';' :: r2 => fromCharCode (digitsToNat (d :: ds)) :: heDecodeAux fuel r2
    | _, _ => '&' :: heDecodeAux fuel ('#' :: r)
  | fuel + 1, c :: r => c :: heDecodeAux fuel r

/-- Single-level decode over strings. -/
def heDecode (s : String) : String := String.mk (heDecodeAux s.data.length s.data)

example : heDecode "&amp;lt;" = "&lt;" := by decide

/-- C9 (confirmed): `decodeHtmlEntities` is not idempotent on doubly-escaped
input: on `"&amp;#60;"` a single call returns the fully unescaped `"<"`
instead of the singly-decoded `"&#60;"`, and equals the reference
single-level decoder applied twice. -/
theorem decodeHtmlEntities_double_decodes :
    decodeHtmlEntities "&amp;#60;" = "<" ∧
    heDecode "&amp;#60;" = "&#60;" ∧
    heDecode (heDecode "&amp;#60;") = "<" ∧
    decodeHtmlEntities "&amp;#60;" = heDecode (heDecode "&amp;#60;") ∧
    decodeHtmlEntities "&amp;#60;" ≠ heDecode "&amp;#60;" := by decide


/-! ## `formatTime`, `parseFloat` and `enhanceSubtitleItems`
(backend/src/utils/youtubeUtils.ts, lines 54–60 and 96–110)

```js
export const formatTime = (seconds: number): string => {
  const mins = Math.floor(seconds / 60);
  const secs = Math.floor(seconds % 60);
  return mins.toString().padStart(2, "0") + ":" + secs.toString().padStart(2, "0");
};
export const enhanceSubtitleItems = (subtitles) => subtitles.map((item) => {
  const start = parseFloat(item.start);
  const dur = parseFloat(item.dur);
  return { ...item, text: decodeHtmlEntities(item.text),
           startFormatted: formatTime(start), end: start + dur };
});
```
-/

/-- JS `parseFloat` restricted to plain decimal literals (no exponent,
`Infinity` or hex, which never occur in caption timing attributes): skip
leading whitespace, read an optional sign and then the longest
`digits[.digits]` prefix, ignoring trailing junk; `none` encodes `NaN`
(no digit could be read). -/
def jsParseFloat (s : String) : Option ℚ :=
  let l := s.data.dropWhile (fun c => c = ' ' || c = '\t' || c = '\n' || c = '\r')
  let signAndRest : ℚ × List Char :=
    match l with
    | '-' :: r => (-1, r)
    | '+' :: r => (1, r)
    | r => (1, r)
  let ip := signAndRest.2.takeWhile Char.isDigit
  let l2 := signAndRest.2.dropWhile Char.isDigit
  let fp :=
    match l2 with
    | '.' :: r => r.takeWhile Char.isDigit
    | _ => []
  if ip.isEmpty && fp.isEmpty then none
  else some (signAndRest.1 * ((digitsToNat ip : ℚ) + (digitsToNat fp : ℚ) / (10 : ℚ) ^ fp.length))

/-- Truncation toward zero, the rounding JS `%` applies to the quotient. -/
def ratTrunc (q : ℚ) : Int := if 0 ≤ q then ⌊q⌋ else -⌊-q⌋

/-- JS remainder: `a % b = a - b * trunc(a / b)`. -/
def jsMod (a b : ℚ) : ℚ := a - b * ratTrunc (a / b)

/-- JS `String.padStart(2, "0")`. -/
def padStart2 (s : String) : String :=
  if s.length < 2 then String.mk (List.replicate (2 - s.length) '0') ++ s else s

/-- Function `formatTime` of `backend/src/utils/youtubeUtils.ts` on a non-`NaN`
number; on `NaN` (`none`) every arithmetic step propagates `NaN` and JS
renders the string `"NaN:NaN"`. -/
def formatTime : Option ℚ → String
  | none => "NaN:NaN"
  | some seconds =>
    padStart2 (toString (⌊seconds / 60⌋)) ++ ":" ++ padStart2 (toString (⌊jsMod seconds 60⌋))

/-- JS addition with `NaN` propagation. -/
def jsAdd : Option ℚ → Option ℚ → Option ℚ
  | some a, some b => some (a + b)
  | _, _ => none

/-- An element of the caption list returned by `youtube-captions-scraper`
(`SubtitleItem` of youtubeUtils.ts): timing fields are strings. -/
structure SubtitleItem where
  text : String
  start : String
  dur : String
deriving DecidableEq

/-- The record produced by `enhanceSubtitleItems`: the spread `...item` keeps
the original fields, `text` is overwritten and `startFormatted`/`end` are
added (`end` is a Lean keyword, hence `endTime`). -/
structure EnhancedSubtitleItem where
  text : String
  start : String
  dur : String
  startFormatted : String
  endTime : Option ℚ
deriving DecidableEq

/-- Function `enhanceSubtitleItems` of `backend/src/utils/youtubeUtils.ts`. -/
def enhanceSubtitleItems (subtitles : List SubtitleItem) : List EnhancedSubtitleItem :=
  subtitles.map fun item =>
    let start := jsParseFloat item.start
    let dur := jsParseFloat item.dur
    { text := decodeHtmlEntities item.text
      start := item.start
      dur := item.dur
      startFormatted := formatTime start
      endTime := jsAdd start dur }

/-- C10 (confirmed): `enhanceSubtitleItems` maps lists to lists of the same
length and order; at every index it leaves `start` and `dur` unchanged,
entity-decodes `text`, and adds the derived `startFormatted`
(`formatTime` of the parsed start, minutes and zero-padded seconds) and
`end` (parsed start plus parsed duration, `NaN` propagating). -/
theorem enhanceSubtitleItems_frame (subtitles : List SubtitleItem) (i : Nat)
    (h : i < subtitles.length) :
    (enhanceSubtitleItems subtitles).length = subtitles.length ∧
    ((enhanceSubtitleItems subtitles).get ⟨i, by simpa [enhanceSubtitleItems] using h⟩ =
      { text := decodeHtmlEntities (subtitles.get ⟨i, h⟩).text
        start := (subtitles.get ⟨i, h⟩).start
        dur := (subtitles.get ⟨i, h⟩).dur
        startFormatted := formatTime (jsParseFloat (subtitles.get ⟨i, h⟩).start)
        endTime := jsAdd (jsParseFloat (subtitles.get ⟨i, h⟩).start)
          (jsParseFloat (subtitles.get ⟨i, h⟩).dur) }) := by
  constructor
  · simp [enhanceSubtitleItems]
  · simp [enhanceSubtitleItems]

section
attribute [local semireducible] Rat.add Rat.mul Rat.inv Rat.sub

example : formatTime (jsParseFloat "61.5") = "01:01" := by decide
example : formatTime (some 6000) = "100:00" := by decide
example : jsParseFloat "abc" = none := by decide

/-- C10 (witness): the frame theorem evaluated on the one-element list
`[{text := "a&amp;b", start := "61.5", dur := "2.25"}]`. -/
theorem enhanceSubtitleItems_frame_witness :
    (0 < ([⟨"a&amp;b", "61.5", "2.25"⟩] : List SubtitleItem).length) ∧
    (enhanceSubtitleItems [⟨"a&amp;b", "61.5", "2.25"⟩]).length = 1 ∧
    (enhanceSubtitleItems [⟨"a&amp;b", "61.5", "2.25"⟩]).get ⟨0, by decide⟩ =
      { text := "a&b", start := "61.5", dur := "2.25",
        startFormatted := "01:01", endTime := some (mkRat 255 4) } := by
  refine ⟨by decide, ?_, ?_⟩
  · exact (enhanceSubtitleItems_frame [⟨"a&amp;b", "61.5", "2.25"⟩] 0 (by decide)).1
  · rw [(enhanceSubtitleItems_frame [⟨"a&amp;b", "61.5", "2.25"⟩] 0 (by decide)).2]
    decide

end


/-! ## `parseSubtitles` (backend/src/utils/youtubeUtils.ts, lines 666–709)

```js
const textRegex = /<text[^>]*>(.*?)<\/text>/g;
const startRegex = /start="([^"]+)"/;
const durRegex = /dur="([^"]+)"/;
let match;
while ((match = textRegex.exec(xmlData)) !== null) {
  const text = he.decode(match[1].replace(/<[^>]+>/g, ""));
  const startMatch = startRegex.exec(match[0]);
  const durMatch = durRegex.exec(match[0]);
  if (startMatch && durMatch) {
    subtitles.push({ text, start: parseFloat(startMatch[1]), duration: parseFloat(durMatch[1]) });
  }
}
```

The global `textRegex` loop resumes after each match (`lastIndex`); the lazy
body `(.*?)` runs to the first `</text>` (and `.` cannot cross a newline);
the attribute regexes search the WHOLE matched element `match[0]` and only
their presence is tested — `parseFloat` failure (`NaN`) does not drop a
segment.
-/
theorem matchLit_self (p r : List Char) : matchLit p (p ++ r) = some r := by
  induction p with
  | nil => rfl
  | cons a ps ih => simpa [matchLit] using ih

theorem takeWhile_append_stop {p : Char → Bool} {l1 : List Char} (l2 : List Char) {b : Char}
    (h : ∀ c ∈ l1, p c = true) (hb : p b = false) :
    (l1 ++ b :: l2).takeWhile p = l1 ∧ (l1 ++ b :: l2).dropWhile p = b :: l2 := by
  induction l1 with
  | nil => simp [List.takeWhile_cons, List.dropWhile_cons, hb]
  | cons a l1 ih =>
    have ha := h a (by simp)
    obtain ⟨ih1, ih2⟩ := ih fun c hc => h c (List.mem_cons_of_mem _ hc)
    simp [List.takeWhile_cons, List.dropWhile_cons, ha, ih1, ih2]

def openText : List Char := ['<', 't', 'e', 'x', 't']
def closeText : List Char := ['<', '/', 't', 'e', 'x', 't', '>']

def scanBody : List Char → Option (List Char × List Char)
  | [] => none
  | c :: r =>
    match matchLit closeText (c :: r) with
    | some rest => some ([], rest)
    | none =>
      if c = '\n' then none
      else
        match scanBody r with
        | some (b, rest) => some (c :: b, rest)
        | none => none

theorem scanBody_build {body rest : List Char}
    (hb : ∀ c ∈ body, ¬ c = '\n' ∧ ¬ c = '/') :
    scanBody (body ++ (closeText ++ rest)) = some (body, rest) := by
  induction body with
  | nil =>
    show scanBody (closeText ++ rest) = some ([], rest)
    rw [show closeText ++ rest = '<' :: ('/' :: 't' :: 'e' :: 'x' :: 't' :: '>' :: rest) from rfl]
    unfold scanBody
    rw [show matchLit closeText ('<' :: '/' :: 't' :: 'e' :: 'x' :: 't' :: '>' :: rest) = some rest from matchLit_self closeText rest]
  | cons c b ih =>
    obtain ⟨hnl, hsl⟩ := hb c (by simp)
    have hrest := ih fun x hx => hb x (List.mem_cons_of_mem _ hx)
    show scanBody (c :: (b ++ (closeText ++ rest))) = some (c :: b, rest)
    have hml : matchLit closeText (c :: (b ++ (closeText ++ rest))) = none := by
      cases b with
      | nil =>
        by_cases hc : c = '<'
        · subst hc; simp [closeText, matchLit]
        · simp [closeText, matchLit, hc]
      | cons x b' =>
        have hx := (hb x (by simp)).2
        show matchLit closeText (c :: x :: (b' ++ (closeText ++ rest))) = none
        by_cases hc : c = '<'
        · subst hc
          have hx2 : ¬ ('/' = x) := fun hh => hx hh.symm
          simp [closeText, matchLit, hx2]
        · have hc2 : ¬ ('<' = c) := fun hh => hc hh.symm
          simp [closeText, matchLit, hc2]
    unfold scanBody
    rw [hml, if_neg hnl, hrest]

def matchTextAt (s : List Char) : Option (List Char × List Char × List Char) :=
  match matchLit openText s with
  | none => none
  | some r1 =>
    match r1.dropWhile (fun c => c ≠ '>') with
    | '>' :: r3 =>
      match scanBody r3 with
      | some (b, rest) =>
        some (openText ++ r1.takeWhile (fun c => c ≠ '>') ++ '>' :: (b ++ closeText), b, rest)
      | none => none
    | _ => none

def findTextElem : List Char → Option (List Char × List Char × List Char)
  | [] => none
  | c :: r =>
    match matchTextAt (c :: r) with
    | some res => some res
    | none => findTextElem r

def startPat : List Char := ['s', 't', 'a', 'r', 't', '=', '"']
def durPat : List Char := ['d', 'u', 'r', '=', '"']

structure RawTextElem where
  startAttr : Option String
  durAttr : Option String
  body : String

def optAttrChars (pat : List Char) : Option String → List Char
  | some v => ' ' :: (pat ++ (v.data ++ ['"']))
  | none => []

def attrChars (e : RawTextElem) : List Char :=
  optAttrChars startPat e.startAttr ++ optAttrChars durPat e.durAttr

def elemChars (e : RawTextElem) : List Char :=
  openText ++ (attrChars e ++ '>' :: (e.body.data ++ closeText))

def buildCaptionDoc (elems : List RawTextElem) : String :=
  String.mk (elems.flatMap elemChars)

def isTimingChar (c : Char) : Bool := c.isDigit || c = '.'

def goodAttr : Option String → Prop
  | none => True
  | some v => v.data ≠ [] ∧ ∀ c ∈ v.data, isTimingChar c = true

def goodBody (b : String) : Prop := ∀ c ∈ b.data, ¬ c = '\n' ∧ ¬ c = '/' ∧ ¬ c = '"'

def goodElem (e : RawTextElem) : Prop := goodAttr e.startAttr ∧ goodAttr e.durAttr ∧ goodBody e.body

theorem timing_no_special {v : String} (hv : ∀ c ∈ v.data, isTimingChar c = true) :
    ∀ c ∈ v.data, ¬ c = '>' ∧ ¬ c = '"' ∧ ¬ c = 's' ∧ ¬ c = 'd' := by
  intro c hc
  have := hv c hc
  refine ⟨?_, ?_, ?_, ?_⟩ <;> (rintro rfl; simp [isTimingChar, Char.isDigit] at this)

theorem startPat_facts : ∀ c ∈ startPat, ¬ c = '>' ∧ ¬ c = 'd' := by decide

theorem durPat_facts : ∀ c ∈ durPat, ¬ c = '>' ∧ ¬ c = 's' := by decide

/-- Semantics of `exec` for `/start="([^"]+)"/` or `/dur="([^"]+)"/` (no `g` flag): scan
positions left to right; at each, match the literal pattern (which ends with
the opening quote), then require a non-empty run of non-quote characters
followed by the closing quote; otherwise resume at the next position. -/
def findQuoted (pat : List Char) : List Char → Option (List Char)
  | [] => none
  | c :: r =>
    match matchLit pat (c :: r) with
    | some rest =>
      let v := rest.takeWhile (fun x => x ≠ '"')
      match rest.dropWhile (fun x => x ≠ '"') with
      | '"' :: _ => if v.isEmpty then findQuoted pat r else some v
      | _ => findQuoted pat r
    | none => findQuoted pat r

theorem findQuoted_cons_eq {pat : List Char} {c : Char} {r : List Char} :
    findQuoted pat (c :: r) =
      match matchLit pat (c :: r) with
      | some rest =>
        let v := rest.takeWhile (fun x => decide (x ≠ '"'))
        match rest.dropWhile (fun x => decide (x ≠ '"')) with
        | '"' :: _ => if v.isEmpty then findQuoted pat r else some v
        | _ => findQuoted pat r
      | none => findQuoted pat r := rfl

theorem findQuoted_cons_nomatch {pat : List Char} {c : Char} {r : List Char}
    (hm : matchLit pat (c :: r) = none) :
    findQuoted pat (c :: r) = findQuoted pat r := by
  rw [findQuoted_cons_eq, hm]

theorem findQuoted_skip {p0 : Char} {ps l1 l2 : List Char} (h : ∀ c ∈ l1, ¬ p0 = c) :
    findQuoted (p0 :: ps) (l1 ++ l2) = findQuoted (p0 :: ps) l2 := by
  induction l1 with
  | nil => rfl
  | cons a l1 ih =>
    have ha := h a (by simp)
    have step : findQuoted (p0 :: ps) (a :: (l1 ++ l2)) = findQuoted (p0 :: ps) (l1 ++ l2) :=
      findQuoted_cons_nomatch (by simp [matchLit, ha])
    exact step.trans (ih fun c hc => h c (List.mem_cons_of_mem _ hc))

theorem findQuoted_no_quote {pat l : List Char} (hq : '"' ∈ pat)
    (h : ∀ c ∈ l, ¬ c = '"') : findQuoted pat l = none := by
  induction l with
  | nil => rfl
  | cons a r ih =>
    have hrec := ih fun c hc => h c (List.mem_cons_of_mem _ hc)
    have hm : matchLit pat (a :: r) = none := by
      cases hm : matchLit pat (a :: r) with
      | none => rfl
      | some rest =>
        exfalso
        have heq := matchLit_append hm
        exact absurd rfl (h _ (heq ▸ List.mem_append_left _ hq))
    rw [findQuoted_cons_nomatch hm, hrec]

theorem findQuoted_here {p0 : Char} {ps v rest : List Char} (hv : v ≠ [])
    (hvq : ∀ c ∈ v, ¬ c = '"') :
    findQuoted (p0 :: ps) ((p0 :: ps) ++ (v ++ '"' :: rest)) = some v := by
  have hvq' : ∀ c ∈ v, (fun x => decide (x ≠ '"')) c = true := by
    intro c hc; simpa using hvq c hc
  obtain ⟨htake, hdrop⟩ := takeWhile_append_stop (p := fun x => decide (x ≠ '"'))
    rest (b := '"') hvq' (by simp)
  show findQuoted (p0 :: ps) (p0 :: (ps ++ (v ++ '"' :: rest))) = some v
  rw [findQuoted_cons_eq]
  rw [show matchLit (p0 :: ps) (p0 :: (ps ++ (v ++ '"' :: rest))) =
    some (v ++ '"' :: rest) from matchLit_self _ _]
  simp only [htake, hdrop]
  rw [if_neg (by simpa using hv)]

def elemMatch0 (e : RawTextElem) : List Char :=
  openText ++ attrChars e ++ '>' :: (e.body.data ++ closeText)

theorem matchTextAt_open (z : List Char) :
    matchTextAt (openText ++ z) =
      match z.dropWhile (fun c => decide (c ≠ '>')) with
      | '>' :: r3 =>
        match scanBody r3 with
        | some (b, rest) =>
          some (openText ++ z.takeWhile (fun c => decide (c ≠ '>')) ++ '>' :: (b ++ closeText), b, rest)
        | none => none
      | _ => none := rfl

theorem timing_ne {c : Char} (h : isTimingChar c = true) :
    ¬ 's' = c ∧ ¬ 'd' = c ∧ ¬ c = '"' ∧ ¬ c = '>' := by
  refine ⟨?_, ?_, ?_, ?_⟩ <;> rintro rfl <;> simp [isTimingChar, Char.isDigit] at h

theorem attrChars_no_gt {e : RawTextElem} (he : goodElem e) :
    ∀ c ∈ attrChars e, (fun c => decide (c ≠ '>')) c = true := by
  obtain ⟨hsA, hdA, _⟩ := he
  intro c hc
  simp only [decide_eq_true_eq]
  rcases List.mem_append.mp hc with hc | hc
  · cases hst : e.startAttr with
    | none => rw [hst] at hc; simp [optAttrChars] at hc
    | some v =>
      rw [hst] at hc hsA
      simp only [optAttrChars] at hc
      rcases List.mem_cons.mp hc with rfl | hc
      · decide
      rcases List.mem_append.mp hc with hc | hc
      · exact (startPat_facts c hc).1
      rcases List.mem_append.mp hc with hc | hc
      · exact (timing_ne (hsA.2 c hc)).2.2.2
      · rw [List.mem_singleton] at hc; subst hc; decide
  · cases hdt : e.durAttr with
    | none => rw [hdt] at hc; simp [optAttrChars] at hc
    | some v =>
      rw [hdt] at hc hdA
      simp only [optAttrChars] at hc
      rcases List.mem_cons.mp hc with rfl | hc
      · decide
      rcases List.mem_append.mp hc with hc | hc
      · exact (durPat_facts c hc).1
      rcases List.mem_append.mp hc with hc | hc
      · exact (timing_ne (hdA.2 c hc)).2.2.2
      · rw [List.mem_singleton] at hc; subst hc; decide

theorem matchTextAt_build {e : RawTextElem} {docRest : List Char} (he : goodElem e) :
    matchTextAt (elemChars e ++ docRest) = some (elemMatch0 e, e.body.data, docRest) := by
  obtain ⟨hsA, hdA, hbB⟩ := he
  obtain ⟨htake, hdrop⟩ := takeWhile_append_stop (p := fun c => decide (c ≠ '>'))
    (e.body.data ++ (closeText ++ docRest)) (b := '>')
    (attrChars_no_gt ⟨hsA, hdA, hbB⟩) (by simp)
  have hscan : scanBody (e.body.data ++ (closeText ++ docRest)) = some (e.body.data, docRest) :=
    scanBody_build fun c hc => ⟨(hbB c hc).1, (hbB c hc).2.1⟩
  have hshape : elemChars e ++ docRest =
      openText ++ (attrChars e ++ '>' :: (e.body.data ++ (closeText ++ docRest))) := by
    simp [elemChars, List.append_assoc]
  rw [hshape, matchTextAt_open, htake, hdrop]
  show (match scanBody (e.body.data ++ (closeText ++ docRest)) with
    | some (b, rest) =>
      some (openText ++ attrChars e ++ '>' :: (b ++ closeText), b, rest)
    | none => none) = some (elemMatch0 e, e.body.data, docRest)
  rw [hscan]
  rfl

theorem findTextElem_cons_eq (c : Char) (r : List Char) :
    findTextElem (c :: r) =
      match matchTextAt (c :: r) with
      | some res => some res
      | none => findTextElem r := rfl

theorem findTextElem_build {e : RawTextElem} {docRest : List Char} (he : goodElem e) :
    findTextElem (elemChars e ++ docRest) = some (elemMatch0 e, e.body.data, docRest) := by
  have hcr : elemChars e ++ docRest =
      '<' :: (('t' :: 'e' :: 'x' :: 't' :: (attrChars e ++ '>' :: (e.body.data ++ closeText))) ++ docRest) := by
    simp [elemChars, openText]
  rw [hcr, findTextElem_cons_eq, ← hcr, matchTextAt_build he]

theorem closeText_no_quote : ∀ c ∈ closeText, ¬ c = '"' := by decide

theorem tail_no_quote {e : RawTextElem} (hbB : goodBody e.body) :
    ∀ c ∈ '>' :: (e.body.data ++ closeText), ¬ c = '"' := by
  intro c hc
  rcases List.mem_cons.mp hc with rfl | hc
  · decide
  rcases List.mem_append.mp hc with hc | hc
  · exact (hbB c hc).2.2
  · exact closeText_no_quote c hc

theorem optAttr_no_s {pat : List Char} {o : Option String} (hpat : ∀ c ∈ pat, ¬ c = 's')
    (hA : goodAttr o) : ∀ c ∈ optAttrChars pat o, ¬ 's' = c := by
  intro c hc
  cases o with
  | none => simp [optAttrChars] at hc
  | some v =>
    simp only [optAttrChars] at hc
    rcases List.mem_cons.mp hc with rfl | hc
    · decide
    rcases List.mem_append.mp hc with hc | hc
    · exact fun h => hpat c hc h.symm
    rcases List.mem_append.mp hc with hc | hc
    · exact (timing_ne (hA.2 c hc)).1
    · rw [List.mem_singleton] at hc; subst hc; decide

theorem optAttr_no_d {pat : List Char} {o : Option String} (hpat : ∀ c ∈ pat, ¬ c = 'd')
    (hA : goodAttr o) : ∀ c ∈ optAttrChars pat o, ¬ 'd' = c := by
  intro c hc
  cases o with
  | none => simp [optAttrChars] at hc
  | some v =>
    simp only [optAttrChars] at hc
    rcases List.mem_cons.mp hc with rfl | hc
    · decide
    rcases List.mem_append.mp hc with hc | hc
    · exact fun h => hpat c hc h.symm
    rcases List.mem_append.mp hc with hc | hc
    · exact (timing_ne (hA.2 c hc)).2.1
    · rw [List.mem_singleton] at hc; subst hc; decide

theorem findQuoted_start_some {e : RawTextElem} {v : String} (hst : e.startAttr = some v)
    (he : goodElem e) : findQuoted startPat (elemMatch0 e) = some v.data := by
  obtain ⟨hsA, hdA, hbB⟩ := he
  rw [hst] at hsA
  have hshape : elemMatch0 e =
      ('<' :: 't' :: 'e' :: 'x' :: 't' :: [' ']) ++
        (startPat ++ (v.data ++ '"' ::
          (optAttrChars durPat e.durAttr ++ '>' :: (e.body.data ++ closeText)))) := by
    simp [elemMatch0, attrChars, optAttrChars, hst, openText, List.append_assoc]
  rw [hshape]
  show findQuoted ('s' :: ['t', 'a', 'r', 't', '=', '"']) _ = some v.data
  rw [findQuoted_skip (by decide)]
  exact findQuoted_here hsA.1 fun c hc => (timing_ne (hsA.2 c hc)).2.2.1

theorem findQuoted_start_none {e : RawTextElem} (hst : e.startAttr = none)
    (he : goodElem e) : findQuoted startPat (elemMatch0 e) = none := by
  obtain ⟨hsA, hdA, hbB⟩ := he
  have hshape : elemMatch0 e =
      (openText ++ optAttrChars durPat e.durAttr) ++ ('>' :: (e.body.data ++ closeText)) := by
    simp [elemMatch0, attrChars, optAttrChars, hst, List.append_assoc]
  have hnos : ∀ c ∈ openText ++ optAttrChars durPat e.durAttr, ¬ 's' = c := by
    intro c hc
    rcases List.mem_append.mp hc with hc | hc
    · revert hc
      have : ∀ c ∈ openText, ¬ 's' = c := by decide
      exact this c
    · exact optAttr_no_s (by decide) hdA c hc
  rw [hshape]
  show findQuoted ('s' :: ['t', 'a', 'r', 't', '=', '"']) _ = none
  rw [findQuoted_skip hnos]
  exact findQuoted_no_quote (by decide) (tail_no_quote hbB)

theorem findQuoted_dur_some {e : RawTextElem} {v : String} (hdt : e.durAttr = some v)
    (he : goodElem e) : findQuoted durPat (elemMatch0 e) = some v.data := by
  obtain ⟨hsA, hdA, hbB⟩ := he
  rw [hdt] at hdA
  have hshape : elemMatch0 e =
      ((openText ++ optAttrChars startPat e.startAttr) ++ [' ']) ++
        (durPat ++ (v.data ++ '"' :: ('>' :: (e.body.data ++ closeText)))) := by
    simp [elemMatch0, attrChars, optAttrChars, hdt, List.append_assoc]
  have hnod : ∀ c ∈ (openText ++ optAttrChars startPat e.startAttr) ++ [' '], ¬ 'd' = c := by
    intro c hc
    rcases List.mem_append.mp hc with hc | hc
    · rcases List.mem_append.mp hc with hc | hc
      · revert hc
        have : ∀ c ∈ openText, ¬ 'd' = c := by decide
        exact this c
      · exact optAttr_no_d (by decide) hsA c hc
    · rw [List.mem_singleton] at hc; subst hc; decide
  rw [hshape]
  show findQuoted ('d' :: ['u', 'r', '=', '"']) _ = some v.data
  rw [findQuoted_skip hnod]
  exact findQuoted_here hdA.1 fun c hc => (timing_ne (hdA.2 c hc)).2.2.1

theorem findQuoted_dur_none {e : RawTextElem} (hdt : e.durAttr = none)
    (he : goodElem e) : findQuoted durPat (elemMatch0 e) = none := by
  obtain ⟨hsA, hdA, hbB⟩ := he
  have hshape : elemMatch0 e =
      (openText ++ optAttrChars startPat e.startAttr) ++ ('>' :: (e.body.data ++ closeText)) := by
    simp [elemMatch0, attrChars, optAttrChars, hdt, List.append_assoc]
  have hnod : ∀ c ∈ openText ++ optAttrChars startPat e.startAttr, ¬ 'd' = c := by
    intro c hc
    rcases List.mem_append.mp hc with hc | hc
    · revert hc
      have : ∀ c ∈ openText, ¬ 'd' = c := by decide
      exact this c
    · exact optAttr_no_d (by decide) hsA c hc
  rw [hshape]
  show findQuoted ('d' :: ['u', 'r', '=', '"']) _ = none
  rw [findQuoted_skip hnod]
  exact findQuoted_no_quote (by decide) (tail_no_quote hbB)

inductive TagScanState
  | idle
  | tag (buf : List Char)

def flushTag : TagScanState → List Char
  | .idle => []
  | .tag buf => '<' :: buf

def stripTagsAux : TagScanState → List Char → List Char
  | st, [] => flushTag st
  | .idle, c :: r => if c = '<' then stripTagsAux (.tag []) r else c :: stripTagsAux .idle r
  | .tag buf, c :: r =>
    if c = '>' then
      if buf.isEmpty then '<' :: '>' :: stripTagsAux .idle r
      else stripTagsAux .idle r
    else stripTagsAux (.tag (buf ++ [c])) r

def stripTags (s : List Char) : List Char := stripTagsAux .idle s

example : stripTags ("a<i>b</i>c<x".data) = "abc<x".data := by decide
example : stripTags ("<><a>b".data) = "<>b".data := by decide

/-- Record `Subtitle` of `parseSubtitles` (youtubeUtils.ts, lines 161–165):
`start` and `duration` are `parseFloat` results, so `none` encodes `NaN`. -/
structure Subtitle where
  text : String
  start : Option ℚ
  duration : Option ℚ
deriving DecidableEq

def parseSubtitlesAux : Nat → List Char → List Subtitle
  | 0, _ => []
  | fuel + 1, s =>
    match findTextElem s with
    | none => []
    | some (m0, body, rest) =>
      (match findQuoted startPat m0, findQuoted durPat m0 with
       | some sv, some dv =>
         [{ text := heDecode (String.mk (stripTags body)),
            start := jsParseFloat (String.mk sv),
            duration := jsParseFloat (String.mk dv) }]
       | _, _ => []) ++ parseSubtitlesAux fuel rest

def parseSubtitles (xmlData : String) : List Subtitle :=
  parseSubtitlesAux xmlData.data.length xmlData.data

def elemParse (e : RawTextElem) : List Subtitle :=
  match e.startAttr, e.durAttr with
  | some sv, some dv =>
    [{ text := heDecode (String.mk (stripTags e.body.data)),
       start := jsParseFloat sv,
       duration := jsParseFloat dv }]
  | _, _ => []

theorem elemChars_ne_nil (e : RawTextElem) : elemChars e ≠ [] := by
  simp [elemChars, openText]

theorem parseSubtitlesAux_cons_eq (fuel : Nat) (s : List Char) :
    parseSubtitlesAux (fuel + 1) s =
      match findTextElem s with
      | none => []
      | some (m0, body, rest) =>
        (match findQuoted startPat m0, findQuoted durPat m0 with
         | some sv, some dv =>
           [{ text := heDecode (String.mk (stripTags body)),
              start := jsParseFloat (String.mk sv),
              duration := jsParseFloat (String.mk dv) }]
         | _, _ => []) ++ parseSubtitlesAux fuel rest := rfl

theorem elemParse_eq_some {e : RawTextElem} {sv dv : String} (hst : e.startAttr = some sv)
    (hdt : e.durAttr = some dv) :
    elemParse e = [{ text := heDecode (String.mk (stripTags e.body.data)),
                     start := jsParseFloat sv, duration := jsParseFloat dv }] := by
  unfold elemParse; rw [hst, hdt]

theorem elemParse_eq_nil {e : RawTextElem} (h : e.startAttr = none ∨ e.durAttr = none) :
    elemParse e = [] := by
  unfold elemParse
  rcases h with h | h
  · rw [h]
  · cases hst : e.startAttr <;> rw [h]

theorem parseSubtitlesAux_build (elems : List RawTextElem) (h : ∀ e ∈ elems, goodElem e) :
    ∀ fuel, (elems.flatMap elemChars).length ≤ fuel →
      parseSubtitlesAux fuel (elems.flatMap elemChars) = elems.flatMap elemParse := by
  induction elems with
  | nil =>
    intro fuel _
    cases fuel with
    | zero => rfl
    | succ f => rfl
  | cons e rest ih =>
    intro fuel hfuel
    have hegood := h e (by simp)
    have hrest : ∀ x ∈ rest, goodElem x := fun x hx => h x (List.mem_cons_of_mem _ hx)
    rw [List.flatMap_cons] at hfuel ⊢
    cases fuel with
    | zero =>
      exfalso
      cases hec : elemChars e with
      | nil => exact elemChars_ne_nil e hec
      | cons a as =>
        rw [hec] at hfuel
        simp at hfuel
    | succ f =>
      have hlen : (rest.flatMap elemChars).length ≤ f := by
        have h1 : 1 ≤ (elemChars e).length := by
          cases hec : elemChars e with
          | nil => exact absurd hec (elemChars_ne_nil e)
          | cons a as => simp
        rw [List.length_append] at hfuel
        omega
      have hrec := ih hrest f hlen
      rw [parseSubtitlesAux_cons_eq, findTextElem_build hegood]
      show (match findQuoted startPat (elemMatch0 e), findQuoted durPat (elemMatch0 e) with
        | some sv, some dv =>
          [{ text := heDecode (String.mk (stripTags e.body.data)),
             start := jsParseFloat (String.mk sv),
             duration := jsParseFloat (String.mk dv) }]
        | _, _ => ([] : List Subtitle)) ++ parseSubtitlesAux f (rest.flatMap elemChars) =
        elemParse e ++ rest.flatMap elemParse
      rw [hrec]
      cases hst : e.startAttr with
      | some sv =>
        cases hdt : e.durAttr with
        | some dv =>
          rw [findQuoted_start_some hst hegood, findQuoted_dur_some hdt hegood,
            elemParse_eq_some hst hdt]
        | none =>
          rw [findQuoted_dur_none hdt hegood, elemParse_eq_nil (Or.inr hdt)]
          cases hq : findQuoted startPat (elemMatch0 e) <;> rfl
      | none =>
        rw [findQuoted_start_none hst hegood, elemParse_eq_nil (Or.inl hst)]

theorem parseSubtitles_flatMap (elems : List RawTextElem) (h : ∀ e ∈ elems, goodElem e) :
    parseSubtitles (buildCaptionDoc elems) = elems.flatMap elemParse :=
  parseSubtitlesAux_build elems h _ le_rfl

structure TimedTextElem where
  start : String
  dur : String
  text : String

def TimedTextElem.toRaw (e : TimedTextElem) : RawTextElem :=
  { startAttr := some e.start, durAttr := some e.dur, body := e.text }

/-- C2 (confirmed): for every caption XML document composed of `<text>`
elements with valid numeric `start` and `dur` attributes (and bodies free of
newline, `/` and `"`), `parseSubtitles` returns exactly one segment per
element, in document order, with HTML entities decoded and embedded markup
stripped from each text, and with parsed `start`/`duration` whose derived
end equals `start + dur`. -/
theorem parseSubtitles_document_order (elems : List TimedTextElem)
    (h : ∀ e ∈ elems, goodElem e.toRaw ∧ (jsParseFloat e.start).isSome ∧
      (jsParseFloat e.dur).isSome) :
    parseSubtitles (buildCaptionDoc (elems.map TimedTextElem.toRaw)) =
      elems.map (fun e => { text := heDecode (String.mk (stripTags e.text.data)),
                            start := jsParseFloat e.start,
                            duration := jsParseFloat e.dur }) ∧
    (parseSubtitles (buildCaptionDoc (elems.map TimedTextElem.toRaw))).length = elems.length ∧
    ∀ seg ∈ parseSubtitles (buildCaptionDoc (elems.map TimedTextElem.toRaw)),
      ∃ qs qd, seg.start = some qs ∧ seg.duration = some qd ∧
        jsAdd seg.start seg.duration = some (qs + qd) := by
  have hgood : ∀ r ∈ elems.map TimedTextElem.toRaw, goodElem r := by
    intro r hr
    obtain ⟨e, he, rfl⟩ := List.mem_map.mp hr
    exact (h e he).1
  have hmain : parseSubtitles (buildCaptionDoc (elems.map TimedTextElem.toRaw)) =
      elems.map (fun e => { text := heDecode (String.mk (stripTags e.text.data)),
                            start := jsParseFloat e.start,
                            duration := jsParseFloat e.dur }) := by
    rw [parseSubtitles_flatMap _ hgood]
    induction elems with
    | nil => rfl
    | cons e rest ih =>
      rw [List.map_cons, List.map_cons, List.flatMap_cons,
        elemParse_eq_some (e := e.toRaw) rfl rfl]
      exact congrArg _ (ih (fun x hx => h x (List.mem_cons_of_mem _ hx))
        (fun r hr => by
          obtain ⟨x, hx, rfl⟩ := List.mem_map.mp hr
          exact (h x (List.mem_cons_of_mem _ hx)).1))
  refine ⟨hmain, by rw [hmain, List.length_map], ?_⟩
  intro seg hseg
  rw [hmain] at hseg
  obtain ⟨e, he, rfl⟩ := List.mem_map.mp hseg
  obtain ⟨qs, hqs⟩ := Option.isSome_iff_exists.mp (h e he).2.1
  obtain ⟨qd, hqd⟩ := Option.isSome_iff_exists.mp (h e he).2.2
  exact ⟨qs, qd, hqs, hqd, by simp [hqs, hqd, jsAdd]⟩

/-- C7 (amended): the parse never fails as a whole; a `<text>` element is
dropped exactly when its `start` or `dur` attribute is missing (the attribute
regex finds no match), and every element with both attributes present yields
a segment — including attributes with NON-numeric values, which are kept
with `NaN` timing rather than dropped (see the counterexample). -/
theorem parseSubtitles_drops_missing_attrs (elems : List RawTextElem)
    (h : ∀ e ∈ elems, goodElem e) :
    parseSubtitles (buildCaptionDoc elems) = elems.flatMap elemParse ∧
    (∀ e ∈ elems, (e.startAttr = none ∨ e.durAttr = none) → elemParse e = []) ∧
    (∀ e : RawTextElem, e.startAttr.isSome → e.durAttr.isSome → (elemParse e).length = 1) := by
  refine ⟨parseSubtitles_flatMap elems h, ?_, ?_⟩
  · intro e _ hmiss
    exact elemParse_eq_nil hmiss
  · intro e hs hd
    obtain ⟨sv, hst⟩ := Option.isSome_iff_exists.mp hs
    obtain ⟨dv, hdt⟩ := Option.isSome_iff_exists.mp hd
    rw [elemParse_eq_some hst hdt]
    rfl


section
attribute [local semireducible] Rat.add Rat.mul Rat.inv Rat.sub

/-- C7 (counterexample): an element with the non-numeric timing attribute
`start="abc"` is NOT dropped: the attribute regex matches, `parseFloat`
yields `NaN`, and the segment is kept with `NaN` start. -/
theorem parseSubtitles_nonNumeric_counterexample :
    parseSubtitles "<text start=\"abc\" dur=\"1\">hi</text>" =
      [{ text := "hi", start := none, duration := some 1 }] ∧
    jsParseFloat "abc" = none ∧
    parseSubtitles "<text start=\"abc\" dur=\"1\">hi</text>" ≠ [] := by
  refine ⟨by decide, by decide, by decide⟩

/-- C2 (witness): the parse theorem evaluated on a two-element document whose
second body carries embedded markup. -/
theorem parseSubtitles_document_order_witness :
    (∀ e ∈ ([⟨"0", "1.5", "a&amp;b"⟩, ⟨"1.5", "2", "x<i>y"⟩] : List TimedTextElem),
      goodElem e.toRaw ∧ (jsParseFloat e.start).isSome ∧ (jsParseFloat e.dur).isSome) ∧
    parseSubtitles (buildCaptionDoc
      (([⟨"0", "1.5", "a&amp;b"⟩, ⟨"1.5", "2", "x<i>y"⟩] : List TimedTextElem).map
        TimedTextElem.toRaw)) =
      [{ text := "a&b", start := some 0, duration := some (mkRat 3 2) },
       { text := "xy", start := some (mkRat 3 2), duration := some 2 }] ∧
    (parseSubtitles (buildCaptionDoc
      (([⟨"0", "1.5", "a&amp;b"⟩, ⟨"1.5", "2", "x<i>y"⟩] : List TimedTextElem).map
        TimedTextElem.toRaw))).length = 2 := by
  have hyp : ∀ e ∈ ([⟨"0", "1.5", "a&amp;b"⟩, ⟨"1.5", "2", "x<i>y"⟩] : List TimedTextElem),
      goodElem e.toRaw ∧ (jsParseFloat e.start).isSome ∧ (jsParseFloat e.dur).isSome := by
    intro e he
    rcases List.mem_cons.mp he with rfl | he
    · exact ⟨⟨⟨by decide, by decide⟩, ⟨by decide, by decide⟩, by unfold goodBody; decide⟩, by decide, by decide⟩
    rcases List.mem_cons.mp he with rfl | he
    · exact ⟨⟨⟨by decide, by decide⟩, ⟨by decide, by decide⟩, by unfold goodBody; decide⟩, by decide, by decide⟩
    · simp at he
  refine ⟨hyp, ?_, (parseSubtitles_document_order _ hyp).2.1⟩
  exact ((parseSubtitles_document_order _ hyp).1).trans (by decide)

/-- C7 (witness): the missing-attribute theorem evaluated on a document whose
first element lacks `start="..."` and is dropped while the complete second
element is kept. -/
theorem parseSubtitles_drops_missing_attrs_witness :
    (∀ e ∈ ([⟨none, some "1", "a"⟩, ⟨some "2", some "3", "b"⟩] : List RawTextElem),
      goodElem e) ∧
    parseSubtitles (buildCaptionDoc
      ([⟨none, some "1", "a"⟩, ⟨some "2", some "3", "b"⟩] : List RawTextElem)) =
      [{ text := "b", start := some 2, duration := some 3 }] := by
  have hyp : ∀ e ∈ ([⟨none, some "1", "a"⟩, ⟨some "2", some "3", "b"⟩] : List RawTextElem),
      goodElem e := by
    intro e he
    rcases List.mem_cons.mp he with rfl | he
    · exact ⟨trivial, ⟨by decide, by decide⟩, by unfold goodBody; decide⟩
    rcases List.mem_cons.mp he with rfl | he
    · exact ⟨⟨by decide, by decide⟩, ⟨by decide, by decide⟩, by unfold goodBody; decide⟩
    · simp at he
  exact ⟨hyp, ((parseSubtitles_drops_missing_attrs _ hyp).1).trans (by decide)⟩

end


/-! ## Caption track selection
(backend/src/utils/youtubeUtils.ts, lines 305–312 and 532–578)

```js
const targetTrack =
  captionTracks.find((t) => t.languageCode === language) ||
  captionTracks.find((t) => t.languageCode === "en");
if (targetTrack && targetTrack.baseUrl) { captionUrl = targetTrack.baseUrl; ... }
...
if (!captionUrl) { ... throw new Error(`Could not find captions for video: ...`); }
```
-/

/-- A caption track of the player response.  `baseUrl := none` models an
absent or empty (JS-falsy) `baseUrl`. -/
structure CaptionTrack where
  languageCode : String
  baseUrl : Option String
deriving DecidableEq

/-- The track selection of `getSubtitlesDirectly` (pattern 1, lines
305–308; pattern 3 repeats the same expression): the first track of the
requested language, else the first `en` track. -/
def findCaptionTrack (tracks : List CaptionTrack) (language : String) : Option CaptionTrack :=
  (tracks.find? (fun t => t.languageCode == language)).orElse
    (fun _ => tracks.find? (fun t => t.languageCode == "en"))

/-- Outcome of caption-URL location for a page whose track list is the given
one (and on which the later fallback patterns find nothing else). -/
inductive LocateOutcome
  | url (u : String)
  | captionsNotFound
deriving DecidableEq

/-- Lines 310–312 combined with the failure exit of lines 532–578: a
selected track with a (truthy) `baseUrl` yields that URL, anything else ends
in `throw new Error("Could not find captions for video: ...")`. -/
def locateCaptionUrl (tracks : List CaptionTrack) (language : String) : LocateOutcome :=
  match findCaptionTrack tracks language with
  | some t =>
    match t.baseUrl with
    | some u => .url u
    | none => .captionsNotFound
  | none => .captionsNotFound

/-- C3 (amended): in the backend extraction (`getSubtitlesDirectly`),
track selection picks the (first) track whose `languageCode` equals the
requested language; if none exists it picks the (first) `en` track, and the
request then succeeds with that English track's caption URL; if neither
language is present the operation ends in the no-captions error.  The claim
as stated over both cited implementations is false: the frontend
`getSubtitleTrackUrl` falls back to the FIRST track of any language and
returns `null` instead of selecting the `en` track or failing with a
no-captions error (see the counterexample). -/
theorem getSubtitlesDirectly_languageFallback (tracks : List CaptionTrack) (language : String) :
    (∀ t, tracks.find? (fun t => t.languageCode == language) = some t →
      findCaptionTrack tracks language = some t ∧ t.languageCode = language) ∧
    (tracks.find? (fun t => t.languageCode == language) = none →
      ∀ t, tracks.find? (fun t => t.languageCode == "en") = some t →
        findCaptionTrack tracks language = some t ∧ t.languageCode = "en" ∧
        ∀ u, t.baseUrl = some u → locateCaptionUrl tracks language = .url u) ∧
    ((∀ t ∈ tracks, ¬ t.languageCode = language ∧ ¬ t.languageCode = "en") →
      locateCaptionUrl tracks language = .captionsNotFound) := by
  refine ⟨?_, ?_, ?_⟩
  · intro t h
    refine ⟨?_, ?_⟩
    · unfold findCaptionTrack
      rw [h]
      rfl
    · have := List.find?_some h
      simpa using this
  · intro hnone t hen
    have hfind : findCaptionTrack tracks language = some t := by
      unfold findCaptionTrack
      rw [hnone, hen]
      rfl
    refine ⟨hfind, by simpa using List.find?_some hen, ?_⟩
    intro u hu
    unfold locateCaptionUrl
    rw [hfind]
    show (match t.baseUrl with
      | some u => LocateOutcome.url u
      | none => LocateOutcome.captionsNotFound) = LocateOutcome.url u
    rw [hu]
  · intro h
    have h1 : tracks.find? (fun t => t.languageCode == language) = none := by
      rw [List.find?_eq_none]
      intro x hx
      simpa using (h x hx).1
    have h2 : tracks.find? (fun t => t.languageCode == "en") = none := by
      rw [List.find?_eq_none]
      intro x hx
      simpa using (h x hx).2
    unfold locateCaptionUrl findCaptionTrack
    rw [h1, h2]
    rfl

/-- C3 (witness): the fallback theorem evaluated on a track list holding
`ko` and `en` tracks with the language `xx` requested, and on a list with
only a `fr` track. -/
theorem getSubtitlesDirectly_languageFallback_witness :
    ([⟨"ko", some "https://yt/ko"⟩, ⟨"en", some "https://yt/en"⟩] : List CaptionTrack).find?
        (fun t => t.languageCode == "xx") = none ∧
    ([⟨"ko", some "https://yt/ko"⟩, ⟨"en", some "https://yt/en"⟩] : List CaptionTrack).find?
        (fun t => t.languageCode == "en") = some ⟨"en", some "https://yt/en"⟩ ∧
    findCaptionTrack [⟨"ko", some "https://yt/ko"⟩, ⟨"en", some "https://yt/en"⟩] "xx" =
      some ⟨"en", some "https://yt/en"⟩ ∧
    locateCaptionUrl [⟨"ko", some "https://yt/ko"⟩, ⟨"en", some "https://yt/en"⟩] "xx" =
      .url "https://yt/en" ∧
    locateCaptionUrl [⟨"fr", some "https://yt/fr"⟩] "ko" = .captionsNotFound := by
  have h2 := (getSubtitlesDirectly_languageFallback
    [⟨"ko", some "https://yt/ko"⟩, ⟨"en", some "https://yt/en"⟩] "xx").2.1
    (by decide) ⟨"en", some "https://yt/en"⟩ (by decide)
  have h3 := (getSubtitlesDirectly_languageFallback [⟨"fr", some "https://yt/fr"⟩] "ko").2.2
    (by decide)
  exact ⟨by decide, by decide, h2.1, h2.2.2 _ rfl, h3⟩

/-! ## The frontend track-URL lookup (src/src/utils/youtubeCaptions.ts)

```js
export async function getSubtitleTrackUrl(videoId, languageCode = "ko") {
  try {
    const tracks = await getSubtitleTracks(videoId);
    const track = tracks.find((track) => track.languageCode === languageCode);
    // 일치하는 트랙이 없으면 첫 번째 트랙 사용 (또는 null 반환)
    return track ? track.baseUrl : tracks.length > 0 ? tracks[0].baseUrl : null;
  } catch (error) { return null; }
}
```
-/

/-- A subtitle track of the frontend track list (interface
`YouTubeSubtitleTrack`, src/src/utils/youtubeCaptions.ts, lines 11–17):
`baseUrl` is declared as a plain string there. -/
structure YouTubeSubtitleTrack where
  languageCode : String
  baseUrl : String
deriving DecidableEq

/-- Function `getSubtitleTrackUrl` (src/src/utils/youtubeCaptions.ts, lines
55–71), embedded at the granularity of the already-fetched track list:
the track of the requested language wins; otherwise the FIRST track of the
list, whatever its language; `none` models the `null` returned on an empty
track list. -/
def getSubtitleTrackUrl (tracks : List YouTubeSubtitleTrack) (languageCode : String) :
    Option String :=
  match tracks.find? (fun track => track.languageCode == languageCode) with
  | some track => some track.baseUrl
  | none =>
    match tracks with
    | [] => none
    | t :: _ => some t.baseUrl

/-- C3 (counterexample): the frontend implementation `getSubtitleTrackUrl`
cited by the claim neither selects the `en` track nor fails with a
no-captions error: with tracks `[fr, en]` and requested language `ko` it
returns the FIRST track's URL (the French one), not the English track's
URL; with only a `fr` track it still succeeds with the French URL instead
of failing; and on an empty track list it returns `null` rather than
raising an error. -/
theorem getSubtitleTrackUrl_first_track_counterexample :
    getSubtitleTrackUrl [⟨"fr", "https://yt/fr"⟩, ⟨"en", "https://yt/en"⟩] "ko" =
      some "https://yt/fr" ∧
    ¬ getSubtitleTrackUrl [⟨"fr", "https://yt/fr"⟩, ⟨"en", "https://yt/en"⟩] "ko" =
      some "https://yt/en" ∧
    getSubtitleTrackUrl [⟨"fr", "https://yt/fr"⟩] "ko" = some "https://yt/fr" ∧
    getSubtitleTrackUrl [] "ko" = none := by
  decide

/-- C4 (amended): in the backend direct extraction (`getSubtitlesDirectly`),
when no caption track matches the requested language or English, the
operation terminates with the captions-not-found error and never yields a
caption URL (hence never a success response).  The claim as stated over all
variants is false: the Netlify serverless variant returns a success response
with substituted demo captions (see the counterexample). -/
theorem getSubtitlesDirectly_no_matching_track (tracks : List CaptionTrack) (language : String)
    (h : ∀ t ∈ tracks, ¬ t.languageCode = language ∧ ¬ t.languageCode = "en") :
    locateCaptionUrl tracks language = .captionsNotFound ∧
    ∀ u, ¬ locateCaptionUrl tracks language = .url u := by
  have hmain := (getSubtitlesDirectly_languageFallback tracks language).2.2 h
  exact ⟨hmain, fun u hu => by rw [hmain] at hu; exact LocateOutcome.noConfusion hu⟩

/-- C4 (witness): the no-matching-track theorem evaluated on a track list
holding only a `fr` track with `ko` requested. -/
theorem getSubtitlesDirectly_no_matching_track_witness :
    (∀ t ∈ ([⟨"fr", some "https://yt/fr"⟩] : List CaptionTrack),
      ¬ t.languageCode = "ko" ∧ ¬ t.languageCode = "en") ∧
    locateCaptionUrl [⟨"fr", some "https://yt/fr"⟩] "ko" = .captionsNotFound := by
  have hyp : ∀ t ∈ ([⟨"fr", some "https://yt/fr"⟩] : List CaptionTrack),
      ¬ t.languageCode = "ko" ∧ ¬ t.languageCode = "en" := by decide
  exact ⟨hyp, (getSubtitlesDirectly_no_matching_track _ _ hyp).1⟩

/-! ## The Netlify serverless handler (netlify/functions/subtitles.js)

```js
const videoIdMatch = url.match(
  /(?:youtu\.be\/|youtube\.com\/(?:embed\/|v\/|watch\?v=|watch\?.+&v=))([^\/\?\&]+)/
);
const videoId = videoIdMatch && videoIdMatch[1];
if (!videoId) return { statusCode: 400, ... };
const [subtitles, videoInfo] = await Promise.all([
  generateDemoSubtitles(videoId, language), getVideoInfo(videoId)]);
return { statusCode: 200, body: JSON.stringify({ success: true, data: { subtitles, ... } }) };
```

The handler never contacts any caption track: it always answers a valid URL
with ten canned demo subtitles and `success: true`.  (`getVideoInfo`
contributes no field modelled below.)
-/

/-- The capture group `([^\/\?\&]+)`: longest run of non-`/?&` characters,
failing when empty. -/
def netlifyIdCapture (s : List Char) : Option (List Char) :=
  let v := s.takeWhile (fun c => ¬ c = '/' ∧ ¬ c = '?' ∧ ¬ c = '&')
  if v.isEmpty then none else some v

/-- The alternative `watch\?.+&v=` after `watch?` has been read: the greedy
`.+` prefers the LAST `&v=` whose following capture is non-empty, cannot
cross a newline, and must consume at least one character (`ampVTail`). -/
def ampVScan : List Char → Option (List Char)
  | [] => none
  | c :: r =>
    if c = '\n' then none
    else
      match ampVScan r with
      | some v => some v
      | none =>
        match matchLit ['&', 'v', '='] (c :: r) with
        | some rest => netlifyIdCapture rest
        | none => none

def ampVTail : List Char → Option (List Char)
  | [] => none
  | c :: r => if c = '\n' then none else ampVScan r

/-- The full alternation of the Netlify video-id regex at one position;
a matched marker whose capture is empty fails over to the next branch. -/
def netlifyMatchAt (s : List Char) : Option (List Char) :=
  (match matchLit ['y', 'o', 'u', 't', 'u', '.', 'b', 'e', '/'] s with
   | some rest => netlifyIdCapture rest
   | none => none) <|>
  (match matchLit ['y', 'o', 'u', 't', 'u', 'b', 'e', '.', 'c', 'o', 'm', '/'] s with
   | none => none
   | some r1 =>
     (match matchLit ['e', 'm', 'b', 'e', 'd', '/'] r1 with
      | some rest => netlifyIdCapture rest
      | none => none) <|>
     (match matchLit ['v', '/'] r1 with
      | some rest => netlifyIdCapture rest
      | none => none) <|>
     (match matchLit ['w', 'a', 't', 'c', 'h', '?', 'v', '='] r1 with
      | some rest => netlifyIdCapture rest
      | none => none) <|>
     (match matchLit ['w', 'a', 't', 'c', 'h', '?'] r1 with
      | some r2 => ampVTail r2
      | none => none))

/-- Unanchored leftmost match. -/
def netlifyScan : List Char → Option (List Char)
  | [] => none
  | c :: r =>
    match netlifyMatchAt (c :: r) with
    | some v => some v
    | none => netlifyScan r

/-- The video-id extraction of the Netlify handler. -/
def netlifyExtractVideoId (url : String) : Option String :=
  (netlifyScan url.data).map String.mk

example : netlifyExtractVideoId "https://www.youtube.com/watch?v=dQw4w9WgXcQ" = some "dQw4w9WgXcQ" := by decide
example : netlifyExtractVideoId "https://youtu.be/dQw4w9WgXcQ" = some "dQw4w9WgXcQ" := by decide
example : netlifyExtractVideoId "https://www.youtube.com/watch?list=x&v=abc" = some "abc" := by decide
example : netlifyExtractVideoId "not a url" = none := by decide

/-- One demo subtitle record of `generateDemoSubtitles`. -/
structure NetlifySubtitle where
  start : String
  dur : String
  text : String
deriving DecidableEq

/-- Function `generateDemoSubtitles` of netlify/functions/subtitles.js: ten canned
segments mentioning the requested language and video id. -/
def generateDemoSubtitles (videoId language : String) : List NetlifySubtitle :=
  (List.range 10).map fun i =>
    { start := toString (i * 10),
      dur := "5",
      text := "이것은 " ++ language ++ " 자막의 " ++ toString (i + 1) ++
        "번째 문장입니다. (비디오 ID: " ++ videoId ++ ")" }

/-- The observable part of the handler response. -/
structure NetlifyResponse where
  statusCode : Nat
  success : Bool
  subtitles : List NetlifySubtitle
deriving DecidableEq

/-- The Netlify `handler` on a POST body `{url, language}`. -/
def netlifyHandler (url language : String) : NetlifyResponse :=
  match netlifyExtractVideoId url with
  | none => { statusCode := 400, success := false, subtitles := [] }
  | some vid =>
    { statusCode := 200, success := true, subtitles := generateDemoSubtitles vid language }

/-- C4 (counterexample): for a well-formed URL (for which no caption track
can be located by the handler — it never even looks for one), the Netlify
variant responds 200/`success: true` with ten substituted demo captions
instead of a CaptionsNotFound error. -/
theorem netlifyHandler_demo_counterexample :
    (netlifyHandler "https://www.youtube.com/watch?v=dQw4w9WgXcQ" "xx").statusCode = 200 ∧
    (netlifyHandler "https://www.youtube.com/watch?v=dQw4w9WgXcQ" "xx").success = true ∧
    (netlifyHandler "https://www.youtube.com/watch?v=dQw4w9WgXcQ" "xx").subtitles.length = 10 ∧
    ¬ (netlifyHandler "https://www.youtube.com/watch?v=dQw4w9WgXcQ" "xx").subtitles = [] := by
  refine ⟨by decide, by decide, by decide, by decide⟩


/-! ## `POST /api/subtitles`
(backend/src/controllers/subtitleController.ts, lines 18–45, together with
backend/src/services/subtitleService.ts, lines 53–59)

```js
// controller
const { url, language } = req.body;
if (!url) { res.status(400).json({ success: false, ... }); return; }
const result = await this.subtitleService.getSubtitles({ url, language: language || "ko" });
res.json(result);                          // 200 on success
// catch: res.status(500).json({ success: false, message: error.message ... })

// service
const videoId = extractVideoID(url);
if (!videoId) { throw new Error("유효하지 않은 YouTube URL입니다."); }
```

Everything after ID extraction (scraping, parsing) is summarised by a
`downstream` outcome parameter: it is only reached when a video ID was
extracted, and any error it produces is also caught as 500.
-/

/-- Result of the service call as seen by the controller. -/
inductive ServiceResult
  | ok
  | err (msg : String)
deriving DecidableEq

/-- The ID-extraction step of `SubtitleService.getSubtitles`: an
unextractable URL throws the invalid-URL error; otherwise the downstream
extraction decides. -/
def serviceGetSubtitles (url : String) (downstream : ServiceResult) : ServiceResult :=
  match extractVideoID url with
  | none => .err "유효하지 않은 YouTube URL입니다."
  | some _ => downstream

/-- Controller `SubtitleController.getSubtitles`: HTTP status and `success` flag.
`url := none` models a missing field, and the empty string is JS-falsy, so
both take the 400 branch; every thrown error lands in the catch-all 500. -/
def controllerGetSubtitles (url : Option String) (downstream : ServiceResult) : Nat × Bool :=
  match url with
  | none => (400, false)
  | some u =>
    if u = "" then (400, false)
    else
      match serviceGetSubtitles u downstream with
      | .ok => (200, true)
      | .err _ => (500, false)

/-- C5 (code evaluation at the failing input): a present-but-invalid `url`
such as `"not a url"` reaches the service, whose invalid-URL error is caught
by the controller's catch-all, producing HTTP 500 — not the 400 required by
the spec and by the route's `body("url").isURL()` validator (whose result
this controller variant never checks).  The response is 500 regardless of
the downstream outcome, and 400 is produced only for a missing or empty
`url` field. -/
theorem subtitles_invalid_url_responds_500 :
    controllerGetSubtitles (some "not a url") .ok = (500, false) ∧
    (∀ d, controllerGetSubtitles (some "not a url") d = (500, false)) ∧
    extractVideoID "not a url" = none ∧
    controllerGetSubtitles none .ok = (400, false) ∧
    controllerGetSubtitles (some "") .ok = (400, false) := by
  refine ⟨by decide, ?_, by decide, by decide, by decide⟩
  intro d
  show (match serviceGetSubtitles "not a url" d with
    | .ok => (200, true)
    | .err _ => (500, false)) = (500, false)
  rw [show serviceGetSubtitles "not a url" d =
    .err "유효하지 않은 YouTube URL입니다." by
      unfold serviceGetSubtitles
      rw [show extractVideoID "not a url" = none from by decide]]

/-! ## `fetchYouTubeVideoInfo` (backend/src/utils/youtubeUtils.ts, lines 113–159)

```js
try {
  const response = await fetch(`https://www.youtube.com/watch?v=${videoId}`);
  const html = await response.text();
  const titleMatch = html.match(/<title>(.*?)<\/title>/);
  const fullTitle = titleMatch ? titleMatch[1] : `Video ${videoId}`;
  let title = fullTitle;
  let channelName = "YouTube Channel";
  if (fullTitle.includes(" - YouTube")) { title = fullTitle.replace(" - YouTube", ""); }
  const channelMatch = html.match(/"ownerChannelName":"(.*?)"/);
  if (channelMatch && channelMatch[1]) { channelName = decodeHtmlEntities(channelMatch[1]); }
  const videoTitleMatch = html.match(/"title":"(.*?)"/);
  if (videoTitleMatch && videoTitleMatch[1]) { title = decodeHtmlEntities(videoTitleMatch[1]); }
  return { title, channelName, thumbnailUrl: `https://img.youtube.com/vi/${videoId}/maxresdefault.jpg`, videoId };
} catch (error) {
  return { title: `Video ${videoId}`, channelName: "YouTube Channel",
           thumbnailUrl: `https://img.youtube.com/vi/${videoId}/maxresdefault.jpg`, videoId };
}
```

The page fetch is modelled by `page : Option String` (`none` = the fetch
threw, taking the catch branch).
-/

/-- Lazy body of `(.*?)` up to the closing pattern; `.` cannot cross a
newline, and reaching the end without the closing pattern fails. -/
def scanLazy (closePat : List Char) : List Char → Option (List Char)
  | [] => none
  | c :: r =>
    match matchLit closePat (c :: r) with
    | some _ => some []
    | none =>
      if c = '\n' then none
      else
        match scanLazy closePat r with
        | some b => some (c :: b)
        | none => none

/-- Leftmost match of `open(.*?)close`, returning the capture: when the body
scan fails at one position the engine retries from the next. -/
def findBetween (openPat closePat : List Char) : List Char → Option (List Char)
  | [] => none
  | c :: r =>
    match (match matchLit openPat (c :: r) with
           | some rest => scanLazy closePat rest
           | none => none) with
    | some b => some b
    | none => findBetween openPat closePat r

/-- First-occurrence replacement by the empty string:
`fullTitle.replace(" - YouTube", "")` (a string pattern replaces only the
first occurrence in JS). -/
def replaceFirst (pat : List Char) : List Char → List Char
  | [] => []
  | c :: r =>
    match matchLit pat (c :: r) with
    | some rest => rest
    | none => c :: replaceFirst pat r

/-- JS `String.includes`. -/
def containsSub (pat : List Char) : List Char → Bool
  | [] => pat.isEmpty
  | c :: r => (matchLit pat (c :: r)).isSome || containsSub pat r

/-- The deterministic thumbnail URL. -/
def thumbnailUrlOf (videoId : String) : String :=
  "https://img.youtube.com/vi/" ++ videoId ++ "/maxresdefault.jpg"

/-- The video-info record returned by `fetchYouTubeVideoInfo`. -/
structure FetchedVideoInfo where
  title : String
  channelName : String
  thumbnailUrl : String
  videoId : String
deriving DecidableEq

/-- Function `fetchYouTubeVideoInfo` of youtubeUtils.ts.  The empty-capture guards
mirror the JS truthiness tests `channelMatch && channelMatch[1]` and
`videoTitleMatch && videoTitleMatch[1]`. -/
def fetchYouTubeVideoInfo (videoId : String) (page : Option String) : FetchedVideoInfo :=
  match page with
  | none =>
    { title := "Video " ++ videoId, channelName := "YouTube Channel",
      thumbnailUrl := thumbnailUrlOf videoId, videoId := videoId }
  | some html =>
    let fullTitle :=
      match findBetween ['<', 't', 'i', 't', 'l', 'e', '>']
          ['<', '/', 't', 'i', 't', 'l', 'e', '>'] html.data with
      | some t => String.mk t
      | none => "Video " ++ videoId
    let ytSuffix : List Char := [' ', '-', ' ', 'Y', 'o', 'u', 'T', 'u', 'b', 'e']
    let title1 :=
      if containsSub ytSuffix fullTitle.data
      then String.mk (replaceFirst ytSuffix fullTitle.data)
      else fullTitle
    let channelName :=
      match findBetween ['"', 'o', 'w', 'n', 'e', 'r', 'C', 'h', 'a', 'n', 'n', 'e', 'l',
          'N', 'a', 'm', 'e', '"', ':', '"'] ['"'] html.data with
      | some c => if c.isEmpty then "YouTube Channel" else decodeHtmlEntities (String.mk c)
      | none => "YouTube Channel"
    let title2 :=
      match findBetween ['"', 't', 'i', 't', 'l', 'e', '"', ':', '"'] ['"'] html.data with
      | some t => if t.isEmpty then title1 else decodeHtmlEntities (String.mk t)
      | none => title1
    { title := title2, channelName := channelName,
      thumbnailUrl := thumbnailUrlOf videoId, videoId := videoId }

example :
    fetchYouTubeVideoInfo "abc"
      (some "<title>My Video - YouTube</title> x \"ownerChannelName\":\"Chan&amp;nel\" y") =
    { title := "My Video", channelName := "Chan&nel",
      thumbnailUrl := "https://img.youtube.com/vi/abc/maxresdefault.jpg", videoId := "abc" } := by
  decide

/-- C8 (confirmed): `fetchYouTubeVideoInfo` returns the deterministically
constructed `img.youtube.com/vi/<id>/maxresdefault.jpg` thumbnail in every
outcome, and on extraction failure it returns the placeholders
`"Video <id>"` and `"YouTube Channel"` instead of propagating an error. -/
theorem fetchYouTubeVideoInfo_thumbnail_and_fallback (videoId : String) (page : Option String) :
    (fetchYouTubeVideoInfo videoId page).thumbnailUrl =
      "https://img.youtube.com/vi/" ++ videoId ++ "/maxresdefault.jpg" ∧
    (fetchYouTubeVideoInfo videoId page).videoId = videoId ∧
    (page = none →
      (fetchYouTubeVideoInfo videoId page).title = "Video " ++ videoId ∧
      (fetchYouTubeVideoInfo videoId page).channelName = "YouTube Channel") := by
  cases page with
  | none => exact ⟨rfl, rfl, fun _ => ⟨rfl, rfl⟩⟩
  | some html =>
    refine ⟨rfl, rfl, fun h => ?_⟩
    exact absurd h (by simp)

/-- C8 (witness): the theorem evaluated for video id `abc` on a failed
fetch. -/
theorem fetchYouTubeVideoInfo_thumbnail_and_fallback_witness :
    (fetchYouTubeVideoInfo "abc" none).thumbnailUrl =
      "https://img.youtube.com/vi/abc/maxresdefault.jpg" ∧
    (fetchYouTubeVideoInfo "abc" none).title = "Video abc" ∧
    (fetchYouTubeVideoInfo "abc" none).channelName = "YouTube Channel" := by
  have h := fetchYouTubeVideoInfo_thumbnail_and_fallback "abc" none
  exact ⟨h.1, (h.2.2 rfl).1, (h.2.2 rfl).2⟩

end Fastube
